import Mathlib

/-!
Verification of the Position Risk Engine of a DeFi lending-position simulator.

The engine derives solvency metrics (health factor, weighted liquidation
threshold, loan-to-value, borrowing headroom) from a position's reserve and
borrow line items, simulates swaps/repays/borrows with a fee/slippage model,
and searches iteratively for hypothetical asset prices that would make the
position liquidatable (health factor ≈ 1.00).

The embedding uses exact rational arithmetic (the source mandates decimal
arithmetic free of binary floating-point drift, implemented there with an
arbitrary-precision decimal library).  The health factor, which the source
sets to Infinity when the position has no debt, is modelled by an explicit
two-constructor type `HFVal`.
-/

namespace DefiSim

/- The rational-number operations are sealed by default; the concrete
evaluations below reduce them in the kernel. -/
attribute [local semireducible] Rat.add Rat.mul Rat.inv Rat.sub Rat.ofScientific

/-- Health-factor value: a finite rational or the source's `Infinity`
(no borrows). -/
inductive HFVal where
  | fin (q : ℚ)
  | inf
deriving Repr, DecidableEq

/-! ## Fee/Slippage model constants (source: SWAP_FEE_BPS etc.) -/

def SWAP_FEE_BPS : ℚ := 25

def EXECUTION_FEE_BPS : ℚ := 5

def DEFAULT_SLIPPAGE_BPS : ℚ := 150

/-- Source: `getSwapFeeMultiplierForSlippageBps`. -/
def getSwapFeeMultiplierForSlippageBps (slippageBps : ℚ) : ℚ :=
  (1 - (SWAP_FEE_BPS + EXECUTION_FEE_BPS) / 10000) * (1 - slippageBps / 10000)

/-- Result record of `getSwapFeeBreakdown`. -/
structure SwapFeeBreakdown where
  swapFeeUsd : ℚ
  executionFeeUsd : ℚ
  totalFeeUsd : ℚ
  slippageUsd : ℚ
  slippageBps : ℚ
  receiveUsd : ℚ
deriving Repr, DecidableEq

/-- Source: `getSwapFeeBreakdown`.  An absent slippage argument
(`slippageBps ?? DEFAULT_SLIPPAGE_BPS`) is modelled by `Option.getD`. -/
def getSwapFeeBreakdown (swapUsd : ℚ) (slippageBps : Option ℚ) : SwapFeeBreakdown :=
  let bps := slippageBps.getD DEFAULT_SLIPPAGE_BPS
  let swapFeeUsd := swapUsd * (SWAP_FEE_BPS / 10000)
  let executionFeeUsd := swapUsd * (EXECUTION_FEE_BPS / 10000)
  let totalFeeUsd := swapFeeUsd + executionFeeUsd
  let receiveUsdAfterFees := swapUsd - totalFeeUsd
  let slippageUsd := receiveUsdAfterFees * (bps / 10000)
  let receiveUsd := receiveUsdAfterFees - slippageUsd
  { swapFeeUsd := swapFeeUsd
    executionFeeUsd := executionFeeUsd
    totalFeeUsd := totalFeeUsd
    slippageUsd := slippageUsd
    slippageBps := bps
    receiveUsd := receiveUsd }

/-- Source: `getCollateralUsdNeededForRepay` — collateral value (USD) needed so
that after fees/slippage one receives `receiveUsd`. -/
def getCollateralUsdNeededForRepay (receiveUsd : ℚ) (slippageBps : Option ℚ) : ℚ :=
  let bps := slippageBps.getD DEFAULT_SLIPPAGE_BPS
  let mult := getSwapFeeMultiplierForSlippageBps bps
  receiveUsd / mult

/-! ## Data model (source: AssetDetails / ReserveAssetDataItem /
BorrowedAssetDataItem / AaveHealthFactorData) -/

/-- Asset description.  Optional numeric fields whose only use in the engine is
`x || 0` (absent ↦ 0) are modelled as plain rationals with 0 encoding absence;
the optional e-mode category id, used only under JS truthiness
(`!!eModeCategoryId`), is a natural number with 0 encoding absence. -/
structure AssetDetails where
  symbol : String
  priceInUSD : ℚ
  priceInMarketReferenceCurrency : ℚ
  baseLTVasCollateral : ℚ
  reserveLiquidationThreshold : ℚ
  eModeLtv : ℚ
  eModeLiquidationThreshold : ℚ
  eModeCategoryId : ℕ
  isActive : Bool
  isFrozen : Bool
  isPaused : Bool
  borrowingEnabled : Bool
  usageAsCollateralEnabled : Bool
  flashLoanEnabled : Bool
  stableBorrowAPY : ℚ
  isNewlyAddedBySimUser : Bool
deriving Repr, DecidableEq

/-- One supplied (reserve) line item. -/
structure ReserveAssetDataItem where
  asset : AssetDetails
  underlyingBalance : ℚ
  underlyingBalanceUSD : ℚ
  underlyingBalanceMarketReferenceCurrency : ℚ
  usageAsCollateralEnabledOnUser : Bool
deriving Repr, DecidableEq

/-- One borrowed line item. -/
structure BorrowedAssetDataItem where
  asset : AssetDetails
  totalBorrows : ℚ
  totalBorrowsUSD : ℚ
  totalBorrowsMarketReferenceCurrency : ℚ
  stableBorrowAPY : ℚ
deriving Repr, DecidableEq

/-- A position with its derived fields (source: `AaveHealthFactorData`;
fetch-bookkeeping fields such as the transaction history are inert in the
risk engine and omitted). -/
structure AaveHealthFactorData where
  healthFactor : HFVal
  totalBorrowsUSD : ℚ
  availableBorrowsUSD : ℚ
  totalCollateralMarketReferenceCurrency : ℚ
  totalBorrowsMarketReferenceCurrency : ℚ
  currentLiquidationThreshold : ℚ
  currentLoanToValue : ℚ
  userReservesData : List ReserveAssetDataItem
  userBorrowsData : List BorrowedAssetDataItem
  userEmodeCategoryId : ℕ
deriving Repr, DecidableEq

/-! ## Eligibility filters -/

/-- Does the character list start with the pattern? -/
def listStartsWith : List Char → List Char → Bool
  | [], _ => true
  | _ :: _, [] => false
  | p :: ps, c :: cs => p == c && listStartsWith ps cs

/-- Substring occurrence over character lists
(`String.prototype.includes`). -/
def listContainsSub (pat : List Char) : List Char → Bool
  | [] => pat.isEmpty
  | c :: cs => listStartsWith pat (c :: cs) || listContainsSub pat cs

def stablecoinSymbols : List String :=
  ["DAI", "USDC", "USDT", "TUSD", "USDP", "BUSD", "FRAX", "LUSD", "SUSD",
   "GUSD", "USDD", "DUSD", "GHO", "USD", "EUR", "MAI", "USDE", "SUSDE",
   "EUSDE", "EURT", "EURS", "AGEUR", "PAR"]

/-- The stablecoin test depends only on the asset's symbol: its ASCII
uppercase form must contain a catalog ticker as a substring. -/
def symbolIsStable (sym : String) : Bool :=
  stablecoinSymbols.any (fun catalogSym =>
    listContainsSub catalogSym.data (sym.data.map Char.toUpper))

/-- Source: `isStablecoinAsset` — case-insensitive substring match against the
fixed catalog of stable-asset tickers. -/
def isStablecoinAsset (asset : AssetDetails) : Bool :=
  symbolIsStable asset.symbol

/-- Source: `isActiveAsset`. -/
def isActiveAsset (asset : AssetDetails) : Bool :=
  asset.isActive && !asset.isPaused && !asset.isFrozen

/-- Source: `isBorrowableAsset`. -/
def isBorrowableAsset (asset : AssetDetails) : Bool :=
  isActiveAsset asset && asset.borrowingEnabled

/-- Source: `isSuppliableAsset`. -/
def isSuppliableAsset (asset : AssetDetails) : Bool :=
  isActiveAsset asset && asset.usageAsCollateralEnabled

/-- Source: `isFlashloanableAsset`. -/
def isFlashloanableAsset (asset : AssetDetails) : Bool :=
  isActiveAsset asset && asset.flashLoanEnabled

/-! ## Derived Metrics Calculator (source: `updateDerivedHealthFactorData`)

The source walks the line items once with an arbitrary-precision decimal
library, rewriting each derived item field when the recomputed value differs
from the stored one, and accumulating the position-level aggregates.  In exact
arithmetic "write iff changed" equals plain assignment, so the embedding
assigns every derived field its recomputed value. -/

/-- Effective liquidation threshold of a collateral item: the asset's e-mode
value iff the asset's e-mode category id is truthy and equals the position's
active e-mode category id, else the base value (`x || 0` absorbed into the
field encoding). -/
def effLiquidationThreshold (userEmode : ℕ) (a : AssetDetails) : ℚ :=
  if a.eModeCategoryId ≠ 0 ∧ a.eModeCategoryId = userEmode then
    a.eModeLiquidationThreshold
  else a.reserveLiquidationThreshold

/-- Effective loan-to-value of a collateral item (same e-mode selection). -/
def effLoanToValue (userEmode : ℕ) (a : AssetDetails) : ℚ :=
  if a.eModeCategoryId ≠ 0 ∧ a.eModeCategoryId = userEmode then
    a.eModeLtv
  else a.baseLTVasCollateral

/-- Per-reserve-item derived-field refresh: price in market reference
currency, balance in MRC, balance in USD. -/
def updReserveItem (mrp : ℚ) (r : ReserveAssetDataItem) : ReserveAssetDataItem :=
  let priceMRC := r.asset.priceInUSD / mrp
  { r with
    asset := { r.asset with priceInMarketReferenceCurrency := priceMRC }
    underlyingBalanceMarketReferenceCurrency := priceMRC * r.underlyingBalance
    underlyingBalanceUSD := r.underlyingBalance * r.asset.priceInUSD }

/-- Per-borrow-item derived-field refresh. -/
def updBorrowItem (mrp : ℚ) (b : BorrowedAssetDataItem) : BorrowedAssetDataItem :=
  let priceMRC := b.asset.priceInUSD / mrp
  { b with
    asset := { b.asset with priceInMarketReferenceCurrency := priceMRC }
    totalBorrowsMarketReferenceCurrency := priceMRC * b.totalBorrows
    totalBorrowsUSD := b.totalBorrows * b.asset.priceInUSD }

/-- One reserve item's contribution to the recompute pass's accumulators
(collateral MRC, weighted liquidation threshold, weighted loan-to-value). -/
def collStep (userEmode : ℕ) (mrp : ℚ) (acc : ℚ × ℚ × ℚ)
    (r : ReserveAssetDataItem) : ℚ × ℚ × ℚ :=
  if r.usageAsCollateralEnabledOnUser then
    let balMRC := (r.asset.priceInUSD / mrp) * r.underlyingBalance
    (acc.1 + balMRC,
     acc.2.1 + effLiquidationThreshold userEmode r.asset / 10000 * balMRC,
     acc.2.2 + effLoanToValue userEmode r.asset / 10000 * balMRC)
  else acc

/-- The reserve-side accumulators of the recompute pass, accumulated over the
collateral-enabled reserve items in list order. -/
def weightedCollAcc (userEmode : ℕ) (rs : List ReserveAssetDataItem) (mrp : ℚ) :
    ℚ × ℚ × ℚ :=
  rs.foldl (collStep userEmode mrp) (0, 0, 0)

/-- One borrow item's contribution to the debt accumulator. -/
def debtStep (mrp : ℚ) (acc : ℚ) (b : BorrowedAssetDataItem) : ℚ :=
  acc + (b.asset.priceInUSD / mrp) * b.totalBorrows

/-- The borrow-side accumulator of the recompute pass: total debt in MRC. -/
def debtAcc (bs : List BorrowedAssetDataItem) (mrp : ℚ) : ℚ :=
  bs.foldl (debtStep mrp) 0

/-- Source: `updateDerivedHealthFactorData`.  One pass recomputing every
derived item field and position aggregate from the line items and the market
reference currency USD price. -/
def updateDerivedHealthFactorData (d : AaveHealthFactorData) (mrp : ℚ) :
    AaveHealthFactorData :=
  let acc := weightedCollAcc d.userEmodeCategoryId d.userReservesData mrp
  let coll := acc.1
  let wLt := acc.2.1
  let wLtv := acc.2.2
  let debt := debtAcc d.userBorrowsData mrp
  let lt := if 0 < wLt ∧ 0 < coll then wLt / coll else 0
  let ltv := if 0 < wLtv ∧ 0 < coll then wLtv / coll else 0
  let hf : HFVal :=
    if 0 < coll ∧ 0 < debt ∧ 0 < lt then .fin (coll * lt / debt)
    else if debt = 0 then .inf
    else .fin 0
  let availUSD := (coll * ltv - debt) * mrp
  { d with
    userReservesData := d.userReservesData.map (updReserveItem mrp)
    userBorrowsData := d.userBorrowsData.map (updBorrowItem mrp)
    totalCollateralMarketReferenceCurrency := coll
    totalBorrowsMarketReferenceCurrency := debt
    currentLiquidationThreshold := lt
    currentLoanToValue := ltv
    healthFactor := hf
    availableBorrowsUSD := if availUSD < 0 then 0 else availUSD
    totalBorrowsUSD := debt * mrp }

/-! ### Derived-field erasure: two positions with the same erasure have the
same essential data (line-item balances, prices, flags, risk parameters), so
the recompute pass treats them identically. -/

/-- Zero out the derived fields of a reserve item. -/
def eraseDerivedR (r : ReserveAssetDataItem) : ReserveAssetDataItem :=
  { r with
    asset := { r.asset with priceInMarketReferenceCurrency := 0 }
    underlyingBalanceMarketReferenceCurrency := 0
    underlyingBalanceUSD := 0 }

/-- Zero out the derived fields of a borrow item. -/
def eraseDerivedB (b : BorrowedAssetDataItem) : BorrowedAssetDataItem :=
  { b with
    asset := { b.asset with priceInMarketReferenceCurrency := 0 }
    totalBorrowsMarketReferenceCurrency := 0
    totalBorrowsUSD := 0 }

/-- Zero out every derived field of a position. -/
def eraseDerived (d : AaveHealthFactorData) : AaveHealthFactorData :=
  { d with
    healthFactor := .fin 0
    totalBorrowsUSD := 0
    availableBorrowsUSD := 0
    totalCollateralMarketReferenceCurrency := 0
    totalBorrowsMarketReferenceCurrency := 0
    currentLiquidationThreshold := 0
    currentLoanToValue := 0
    userReservesData := d.userReservesData.map eraseDerivedR
    userBorrowsData := d.userBorrowsData.map eraseDerivedB }

/-! ## Eligible liquidation-scenario reserves
(source: `getEligibleLiquidationScenarioReserves`) -/

def MINIMUM_CUMULATIVE_RESERVE_USD : ℚ := 50

def MINIMUM_CUMULATIVE_RESERVE_PCT : ℚ := 5

/-- Source: `getEligibleLiquidationScenarioReserves`.  Empty when any borrow
is a non-stablecoin; otherwise the non-stablecoin collateral-enabled reserves,
subject to the cumulative-value thresholds and the requirement that some
borrowed asset is not among them. -/
def getEligibleLiquidationScenarioReserves (hfData : AaveHealthFactorData) :
    List ReserveAssetDataItem :=
  let hasNonStablecoinBorrows :=
    hfData.userBorrowsData.any (fun b => !isStablecoinAsset b.asset)
  if hasNonStablecoinBorrows then []
  else
    let eligibleReserves := hfData.userReservesData.filter
      (fun r => !isStablecoinAsset r.asset && r.usageAsCollateralEnabledOnUser)
    let cumulativeReserveUSDValue :=
      (eligibleReserves.map (fun r => r.underlyingBalanceUSD)).sum
    let cumulativeReserveMRCValue :=
      (eligibleReserves.map
        (fun r => r.underlyingBalanceMarketReferenceCurrency)).sum
    let exceedsMinResPct :=
      hfData.totalCollateralMarketReferenceCurrency *
        (MINIMUM_CUMULATIVE_RESERVE_PCT / 100) < cumulativeReserveMRCValue
    let exceedsMinResUSD :=
      MINIMUM_CUMULATIVE_RESERVE_USD < cumulativeReserveUSDValue
    if ¬ (exceedsMinResPct ∧ exceedsMinResUSD) then []
    else
      let hasDifferentBorrowedAsset :=
        !hfData.userBorrowsData.isEmpty &&
          hfData.userBorrowsData.any (fun b =>
            !(eligibleReserves.any (fun r => r.asset.symbol == b.asset.symbol)))
      if hasDifferentBorrowedAsset then eligibleReserves else []

/-! ## Liquidation Scenario Solver (source: `getCalculatedLiquidationScenario`)

The source mutates a deep clone through shared references: the scenario's
`assets` array aliases the eligible reserve items' asset objects, so a price
write is a write into the cloned position followed by an (aliased, redundant)
sync into the matching reserve and borrow line items.  The embedding tracks
the scenario assets by symbol and performs the price writes on the position
value; the returned assets are read back from the final position. -/

def HF_LIMIT : ℚ := 10049999999999 / 10000000000000

def SHORT_CIRCUIT_LOOP_LIMIT : ℕ := 500

/-- `Number.EPSILON`. -/
def NUMBER_EPSILON : ℚ := 1 / 2 ^ 52

/-- `Math.round` (round half toward positive infinity). -/
def jsRound (x : ℚ) : ℤ := Int.floor (x + 1 / 2)

/-- `Math.round((x + Number.EPSILON) * 100) / 100` — round to cents. -/
def roundCents (x : ℚ) : ℚ := (jsRound ((x + NUMBER_EPSILON) * 100) : ℚ) / 100

/-- Does a health factor display as 1.00 after the source's two-decimal
rounding? -/
def hfRoundsToOne : HFVal → Bool
  | .fin q => decide (roundCents q = 1)
  | .inf => false

/-- JS `hf < HF_LIMIT` (false for Infinity). -/
def hfLtLimit : HFVal → Bool
  | .fin q => decide (q < HF_LIMIT)
  | .inf => false

/-- JS `hf > HF_LIMIT` (true for Infinity). -/
def hfGtLimit : HFVal → Bool
  | .fin q => decide (HF_LIMIT < q)
  | .inf => true

/-- JS `hf < 1.0` (false for Infinity). -/
def hfLtOne : HFVal → Bool
  | .fin q => decide (q < 1)
  | .inf => false

/-- Overwrite the USD price of the first reserve item bearing a symbol. -/
def setReservePriceFirst :
    List ReserveAssetDataItem → String → ℚ → List ReserveAssetDataItem
  | [], _, _ => []
  | r :: rest, sym, p =>
    if r.asset.symbol == sym then
      { r with asset := { r.asset with priceInUSD := p } } :: rest
    else r :: setReservePriceFirst rest sym p

/-- Overwrite the USD price of the first borrow item bearing a symbol. -/
def setBorrowPriceFirst :
    List BorrowedAssetDataItem → String → ℚ → List BorrowedAssetDataItem
  | [], _, _ => []
  | b :: rest, sym, p =>
    if b.asset.symbol == sym then
      { b with asset := { b.asset with priceInUSD := p } } :: rest
    else b :: setBorrowPriceFirst rest sym p

/-- Set an asset's USD price wherever its symbol appears (first matching
reserve item and first matching borrow item), as the source's price writes
do. -/
def setPriceInData (d : AaveHealthFactorData) (sym : String) (p : ℚ) :
    AaveHealthFactorData :=
  { d with
    userReservesData := setReservePriceFirst d.userReservesData sym p
    userBorrowsData := setBorrowPriceFirst d.userBorrowsData sym p }

/-- Reserve-side-only price write: the contraction phase's revert restores
only the aliased asset object, i.e. the reserve line item. -/
def setReservePriceOnly (d : AaveHealthFactorData) (sym : String) (p : ℚ) :
    AaveHealthFactorData :=
  { d with userReservesData := setReservePriceFirst d.userReservesData sym p }

/-- Current USD price of the first reserve item bearing a symbol. -/
def findReservePrice (d : AaveHealthFactorData) (sym : String) : Option ℚ :=
  (d.userReservesData.find? (fun r => r.asset.symbol == sym)).map
    (fun r => r.asset.priceInUSD)

/-- The scenario assets (by symbol), carrying their current state in the
position. -/
def scenarioAssetsOf (d : AaveHealthFactorData) (syms : List String) :
    List AssetDetails :=
  syms.filterMap (fun s =>
    (d.userReservesData.find? (fun r => r.asset.symbol == s)).map
      (fun r => r.asset))

/-- Mutable state of the solver's loops: the cloned position, the `hf`
variable, the sweep-local uniform decrement percentage, and the
short-circuit flag. -/
structure SolverState where
  d : AaveHealthFactorData
  hf : HFVal
  decPct : ℚ
  shortCircuit : Bool
deriving Repr, DecidableEq

/-- One asset of an expansion sweep: raise the price by 10 % (rounded to the
cent), write it back, recompute, commit the new health factor. -/
def expandStep (mrp : ℚ) (st : SolverState) (sym : String) : SolverState :=
  match findReservePrice st.d sym with
  | none => st
  | some price =>
    let base := if price = 0 then 1 else price
    let priceIncrement := roundCents (base * (1 / 10))
    let newPrice := price + priceIncrement
    let d1 := setPriceInData st.d sym newPrice
    let d2 := updateDerivedHealthFactorData d1 mrp
    { st with d := d2, hf := d2.healthFactor }

/-- The contraction decrement before rounding: the established uniform
percentage if any, else an estimate proportional to `hf − HF_LIMIT` capped at
half the price (for an infinite health factor JS yields the cap itself). -/
def contractionDecrement (hf : HFVal) (decPct price : ℚ) : ℚ :=
  if decPct ≠ 0 then
    max (1 / 100) (decPct * price / 100)
  else
    match hf with
    | .fin q =>
      max (1 / 100) (min (price * ((q - HF_LIMIT) * (45 / 100))) (price * (1 / 2)))
    | .inf => max (1 / 100) (price * (1 / 2))

/-- One asset of a contraction sweep: skip once the sweep reached the band,
else decrement the price (floored at one cent), flag short-circuit when every
scenario price sits at the floor, recompute, and either commit the new health
factor or, when it fell below 1.00, revert this asset's price. -/
def contractStep (mrp : ℚ) (syms : List String) (st : SolverState)
    (sym : String) : SolverState :=
  if hfLtLimit st.hf then st
  else
    match findReservePrice st.d sym with
    | none => st
    | some initialPrice =>
      let priceDecrement := roundCents (contractionDecrement st.hf st.decPct initialPrice)
      let decPct' := if st.decPct ≠ 0 then st.decPct
                     else priceDecrement * 100 / initialPrice
      let newPrice := max (initialPrice - priceDecrement) (1 / 100)
      let d1 := setPriceInData st.d sym newPrice
      let anyAbovePenny :=
        (syms.filterMap (findReservePrice d1)).any (fun p => decide (1 / 100 < p))
      let sc' := if newPrice = 1 / 100 ∧ anyAbovePenny = false then true
                 else st.shortCircuit
      let d2 := updateDerivedHealthFactorData d1 mrp
      if hfLtOne d2.healthFactor then
        { d := setReservePriceOnly d2 sym initialPrice, hf := st.hf,
          decPct := decPct', shortCircuit := sc' }
      else
        { d := d2, hf := d2.healthFactor, decPct := decPct',
          shortCircuit := sc' }

/-- Expansion phase: sweep while `hf < HF_LIMIT` and iterations remain.  The
returned number is the remaining iteration budget (the source's loop counter
`i` equals 500 minus it). -/
def expansionLoop (mrp : ℚ) (syms : List String) :
    ℕ → SolverState → SolverState × ℕ
  | 0, st => (st, 0)
  | fuel + 1, st =>
    if hfLtLimit st.hf then
      expansionLoop mrp syms fuel (syms.foldl (expandStep mrp) st)
    else (st, fuel + 1)

/-- Contraction phase: sweep while `hf > HF_LIMIT`, iterations remain and the
search has not short-circuited; the uniform decrement percentage is reset at
the top of every sweep. -/
def contractionLoop (mrp : ℚ) (syms : List String) :
    ℕ → SolverState → SolverState × ℕ
  | 0, st => (st, 0)
  | fuel + 1, st =>
    if hfGtLimit st.hf && !st.shortCircuit then
      contractionLoop mrp syms fuel
        (syms.foldl (contractStep mrp syms) { st with decPct := 0 })
    else (st, fuel + 1)

/-- Source: `getCalculatedLiquidationScenario`.  Given a position with derived
metrics computed, return assets with hypothetical USD prices that would put
the health factor at ≈ 1.00, or `[]` when no scenario is viable. -/
def getCalculatedLiquidationScenario (hfData : AaveHealthFactorData)
    (mrp : ℚ) : List AssetDetails :=
  let reserves := getEligibleLiquidationScenarioReserves hfData
  let syms := reserves.map (fun r => r.asset.symbol)
  let hf0 : HFVal := match hfData.healthFactor with
    | .fin q => if q = 0 then .fin (-1) else .fin q
    | .inf => .inf
  if syms.isEmpty ∨ hf0 = .inf ∨ hf0 = .fin (-1) then []
  else if hfRoundsToOne hf0 then scenarioAssetsOf hfData syms
  else
    let st0 : SolverState :=
      { d := hfData, hf := hf0, decPct := 0, shortCircuit := false }
    let p1 := expansionLoop mrp syms SHORT_CIRCUIT_LOOP_LIMIT st0
    let p2 := contractionLoop mrp syms p1.2 p1.1
    if p2.1.shortCircuit ∨ p2.2 = 0 then []
    else scenarioAssetsOf p2.1.d syms

/-- Source: `applyLiquidationScenario` — write each scenario asset's
hypothetical USD price into the position (wherever the symbol appears). -/
def applyScenario (d : AaveHealthFactorData) (scenario : List AssetDetails) :
    AaveHealthFactorData :=
  scenario.foldl (fun acc a => setPriceInData acc a.symbol a.priceInUSD) d

/-! ### Infrastructure for reasoning about sequences of price writes -/

/-- The (symbol, USD price) projection of a scenario. -/
def pairsOfScenario (scenario : List AssetDetails) : List (String × ℚ) :=
  scenario.map (fun a => (a.symbol, a.priceInUSD))

/-- Apply a sequence of (symbol, price) writes to a position. -/
def applyPairs (d : AaveHealthFactorData) (ps : List (String × ℚ)) :
    AaveHealthFactorData :=
  ps.foldl (fun acc e => setPriceInData acc e.1 e.2) d

/-- Apply a sequence of (symbol, price) writes to a reserve list. -/
def applyPairsR (rs : List ReserveAssetDataItem) (ps : List (String × ℚ)) :
    List ReserveAssetDataItem :=
  ps.foldl (fun acc e => setReservePriceFirst acc e.1 e.2) rs

/-- Overwrite one reserve item's USD price. -/
def setRP (r : ReserveAssetDataItem) (p : ℚ) : ReserveAssetDataItem :=
  { r with asset := { r.asset with priceInUSD := p } }

/-- The net effect of a write sequence on the price of the item bearing a
symbol (the last matching write wins). -/
def histApply (ps : List (String × ℚ)) (s : String) (p0 : ℚ) : ℚ :=
  ps.foldl (fun cur e => if s = e.1 then e.2 else cur) p0

/-- The scenario's (symbol, price) pairs read back from a reserve list. -/
def scenPairsR (rs : List ReserveAssetDataItem) (syms : List String) :
    List (String × ℚ) :=
  syms.filterMap (fun s =>
    (rs.find? (fun r => r.asset.symbol == s)).map
      (fun r => (r.asset.symbol, r.asset.priceInUSD)))

/-- The property of a health factor being at least 1 (infinite included). -/
def HFVal.ge1 : HFVal → Prop
  | .fin q => 1 ≤ q
  | .inf => True

/-- Invariant carried through the solver's loops: the `hf` variable equals
the recompute of the current clone, the clone's essential data is the
original position's after a sequence of scenario-symbol price writes, and the
borrow symbols are untouched. -/
def SolverInvariant (d0 : AaveHealthFactorData) (mrp : ℚ) (syms : List String)
    (st : SolverState) : Prop :=
  st.hf = (updateDerivedHealthFactorData st.d mrp).healthFactor ∧
  (∃ hist : List (String × ℚ), (∀ e ∈ hist, e.1 ∈ syms) ∧
    eraseDerived st.d = applyPairs (eraseDerived d0) hist) ∧
  st.d.userBorrowsData.map (fun b => b.asset.symbol) =
    d0.userBorrowsData.map (fun b => b.asset.symbol)

/-! ## Position Mutation Engine -/

/-- Overwrite the quantity of the first borrow item bearing a symbol. -/
def setBorrowQtyFirst :
    List BorrowedAssetDataItem → String → ℚ → List BorrowedAssetDataItem
  | [], _, _ => []
  | b :: rest, sym, q =>
    if b.asset.symbol == sym then { b with totalBorrows := q } :: rest
    else b :: setBorrowQtyFirst rest sym q

/-- Overwrite the balance of the first reserve item bearing a symbol. -/
def setReserveQtyFirst :
    List ReserveAssetDataItem → String → ℚ → List ReserveAssetDataItem
  | [], _, _ => []
  | r :: rest, sym, q =>
    if r.asset.symbol == sym then { r with underlyingBalance := q } :: rest
    else r :: setReserveQtyFirst rest sym q

/-- Source: `setBorrowedAssetQuantity`.  When a matching borrow item holds a
different quantity, write it and recompute; with no matching item the source
still recomputes (the JS comparison `undefined !== quantity` succeeds while
the optional-chained write is a no-op). -/
def setBorrowedAssetQuantity (d : AaveHealthFactorData) (mrp : ℚ)
    (symbol : String) (quantity : ℚ) : AaveHealthFactorData :=
  match d.userBorrowsData.find? (fun b => b.asset.symbol == symbol) with
  | none => updateDerivedHealthFactorData d mrp
  | some item =>
    if item.totalBorrows ≠ quantity then
      updateDerivedHealthFactorData
        { d with userBorrowsData := setBorrowQtyFirst d.userBorrowsData symbol quantity }
        mrp
    else d

/-- Source: `setReserveAssetQuantity`. -/
def setReserveAssetQuantity (d : AaveHealthFactorData) (mrp : ℚ)
    (symbol : String) (quantity : ℚ) : AaveHealthFactorData :=
  match d.userReservesData.find? (fun r => r.asset.symbol == symbol) with
  | none => updateDerivedHealthFactorData d mrp
  | some item =>
    if item.underlyingBalance ≠ quantity then
      updateDerivedHealthFactorData
        { d with userReservesData := setReserveQtyFirst d.userReservesData symbol quantity }
        mrp
    else d

/-- Source: `addBorrowAsset` — append a zero-quantity borrow line item for a
catalog asset, marked as user-added.  (Callers only invoke it for symbols
present in the catalog.) -/
def addBorrowAsset (d : AaveHealthFactorData)
    (availableAssets : List AssetDetails) (symbol : String) :
    AaveHealthFactorData :=
  match availableAssets.find? (fun a => a.symbol == symbol) with
  | none => d
  | some asset =>
    { d with userBorrowsData := d.userBorrowsData ++
        [{ asset := { asset with isNewlyAddedBySimUser := true }
           totalBorrows := 0
           totalBorrowsUSD := 0
           totalBorrowsMarketReferenceCurrency := 0
           stableBorrowAPY := 0 }] }

/-- Source: `addReserveAsset` — append a zero-balance reserve line item for a
catalog asset, marked as user-added. -/
def addReserveAsset (d : AaveHealthFactorData)
    (availableAssets : List AssetDetails) (symbol : String) :
    AaveHealthFactorData :=
  match availableAssets.find? (fun a => a.symbol == symbol) with
  | none => d
  | some asset =>
    { d with userReservesData := d.userReservesData ++
        [{ asset := { asset with isNewlyAddedBySimUser := true }
           underlyingBalance := 0
           underlyingBalanceUSD := 0
           underlyingBalanceMarketReferenceCurrency := 0
           usageAsCollateralEnabledOnUser := asset.usageAsCollateralEnabled }] }

/-- Source: `simulateSwapDebt` — swap a fraction of one borrowed asset into
another, applying the fee/slippage multiplier; silent no-op when the source
borrow is missing or non-positive, the symbols coincide, or the target is not
a borrowable catalog asset. -/
def simulateSwapDebt (d : AaveHealthFactorData)
    (availableAssets : List AssetDetails) (mrp : ℚ)
    (sourceSymbol targetSymbol : String) (percentage : ℚ)
    (slippageBps : Option ℚ) : AaveHealthFactorData :=
  let mult := getSwapFeeMultiplierForSlippageBps (slippageBps.getD DEFAULT_SLIPPAGE_BPS)
  match d.userBorrowsData.find? (fun b => b.asset.symbol == sourceSymbol) with
  | none => d
  | some sourceItem =>
    if sourceItem.totalBorrows ≤ 0 ∨ sourceSymbol = targetSymbol then d
    else
      let swapUsd := sourceItem.totalBorrows * sourceItem.asset.priceInUSD * percentage
      match availableAssets.find? (fun a => a.symbol == targetSymbol) with
      | none => d
      | some targetAsset =>
        if isBorrowableAsset targetAsset = false then d
        else
          let targetPrice := if targetAsset.priceInUSD = 0 then 1
                             else targetAsset.priceInUSD
          let targetQuantity := swapUsd * mult / targetPrice
          let targetExisting :=
            d.userBorrowsData.find? (fun b => b.asset.symbol == targetSymbol)
          let existingTargetQty := match targetExisting with
            | some t => t.totalBorrows
            | none => 0
          let d1 := match targetExisting with
            | some _ => d
            | none => addBorrowAsset d availableAssets targetSymbol
          let newSourceQty := sourceItem.totalBorrows * (1 - percentage)
          let d2 := setBorrowedAssetQuantity d1 mrp sourceSymbol newSourceQty
          setBorrowedAssetQuantity d2 mrp targetSymbol
            (existingTargetQty + targetQuantity)

/-- Source: `simulateSwapCollateral`. -/
def simulateSwapCollateral (d : AaveHealthFactorData)
    (availableAssets : List AssetDetails) (mrp : ℚ)
    (sourceSymbol targetSymbol : String) (percentage : ℚ)
    (slippageBps : Option ℚ) (swapAmount : Option ℚ) : AaveHealthFactorData :=
  let mult := getSwapFeeMultiplierForSlippageBps (slippageBps.getD DEFAULT_SLIPPAGE_BPS)
  match d.userReservesData.find? (fun r => r.asset.symbol == sourceSymbol) with
  | none => d
  | some sourceItem =>
    if sourceItem.underlyingBalance ≤ 0 ∨ sourceSymbol = targetSymbol then d
    else
      let sourceUnitsToSwap := match swapAmount with
        | some a => if 0 < a then min a sourceItem.underlyingBalance
                    else sourceItem.underlyingBalance * percentage
        | none => sourceItem.underlyingBalance * percentage
      let swapUsd := sourceUnitsToSwap * sourceItem.asset.priceInUSD
      match availableAssets.find? (fun a => a.symbol == targetSymbol) with
      | none => d
      | some targetAsset =>
        if isSuppliableAsset targetAsset = false then d
        else
          let targetPrice := if targetAsset.priceInUSD = 0 then 1
                             else targetAsset.priceInUSD
          let targetQuantity := swapUsd * mult / targetPrice
          let targetExisting :=
            d.userReservesData.find? (fun r => r.asset.symbol == targetSymbol)
          let existingTargetQty := match targetExisting with
            | some t => t.underlyingBalance
            | none => 0
          let d1 := match targetExisting with
            | some _ => d
            | none => addReserveAsset d availableAssets targetSymbol
          let newSourceQty := sourceItem.underlyingBalance - sourceUnitsToSwap
          let d2 := setReserveAssetQuantity d1 mrp sourceSymbol newSourceQty
          setReserveAssetQuantity d2 mrp targetSymbol
            (existingTargetQty + targetQuantity)

inductive RepayMode where
  | manual
  | collateral
deriving Repr, DecidableEq

/-- Parameter record of `simulateRepayDebt`. -/
structure RepayParams where
  debtSymbol : String
  mode : RepayMode
  manualAmount : Option ℚ
  collateralSymbol : Option String
  percentage : Option ℚ
  collateralRepayAmount : Option ℚ
  slippageBps : Option ℚ
  liquidationBonusPct : Option ℚ
deriving Repr, DecidableEq

/-- Source: `simulateRepayDebt` — repay debt manually or by selling
collateral, the latter either through the fee/slippage model or through a
liquidation-bonus seizure (bonus replaces the fee model). -/
def simulateRepayDebt (d : AaveHealthFactorData) (mrp : ℚ)
    (params : RepayParams) : AaveHealthFactorData :=
  match d.userBorrowsData.find? (fun b => b.asset.symbol == params.debtSymbol) with
  | none => d
  | some debtItem =>
    if debtItem.totalBorrows ≤ 0 then d
    else
      match params.mode, params.manualAmount with
      | .manual, some manualAmount =>
        let amount := max 0 manualAmount
        let newQty := max 0 (debtItem.totalBorrows - amount)
        setBorrowedAssetQuantity d mrp params.debtSymbol newQty
      | .manual, none => d
      | .collateral, _ =>
        match params.collateralSymbol with
        | none => d
        | some collateralSymbol =>
          let repayAmtPositive := match params.collateralRepayAmount with
            | some a => decide (0 < a)
            | none => false
          if params.percentage = none ∧ repayAmtPositive = false then d
          else
            let debtReduceUnitsTarget := match params.collateralRepayAmount with
              | some a =>
                if 0 < a then min a debtItem.totalBorrows
                else (params.percentage.getD 0) * debtItem.totalBorrows
              | none => (params.percentage.getD 0) * debtItem.totalBorrows
            match d.userReservesData.find? (fun r => r.asset.symbol == collateralSymbol) with
            | none => d
            | some collateralItem =>
              if collateralItem.underlyingBalance ≤ 0 ∨ debtReduceUnitsTarget ≤ 0 then d
              else
                let debtPrice := if debtItem.asset.priceInUSD = 0 then 1
                                 else debtItem.asset.priceInUSD
                let debtReduceUsdTarget := debtReduceUnitsTarget * debtPrice
                let collateralPrice := if collateralItem.asset.priceInUSD = 0 then 1
                                       else collateralItem.asset.priceInUSD
                let bonus := match params.liquidationBonusPct with
                  | some b => if 0 < b then b / 100 else 0
                  | none => 0
                let units :=
                  if 0 < bonus then
                    let collateralUsdSeized := debtReduceUsdTarget * (1 + bonus)
                    let collateralUnitsSeized := collateralUsdSeized / collateralPrice
                    let used := min collateralUnitsSeized collateralItem.underlyingBalance
                    let actualCollateralUsdSeized := used * collateralPrice
                    (used,
                     min (actualCollateralUsdSeized / (1 + bonus) / debtPrice)
                       debtItem.totalBorrows)
                  else
                    let mult := getSwapFeeMultiplierForSlippageBps
                      (params.slippageBps.getD DEFAULT_SLIPPAGE_BPS)
                    let collateralUsdNeeded := debtReduceUsdTarget / mult
                    let collateralUnitsNeeded := collateralUsdNeeded / collateralPrice
                    let used := min collateralUnitsNeeded collateralItem.underlyingBalance
                    let actualReceiveUsd := used * collateralPrice * mult
                    (used, min (actualReceiveUsd / debtPrice) debtItem.totalBorrows)
                let newCollateralQty := max 0 (collateralItem.underlyingBalance - units.1)
                let newDebtQty := max 0 (debtItem.totalBorrows - units.2)
                let d1 := setReserveAssetQuantity d mrp collateralSymbol newCollateralQty
                setBorrowedAssetQuantity d1 mrp params.debtSymbol newDebtQty

/-! ## Projected ("preview") variants

The source reads the working position out of a reactive store, deep-copies it
(`JSON.parse(JSON.stringify(...))`), performs the same arithmetic as the
mutating operation on the copy, and returns `{ healthFactor,
liquidationScenario }`.  The embedding passes the store explicitly and each
function returns the (possibly written) store next to its result, so that
frame preservation is a statement about the function rather than an ambient
convention; a deep copy of an immutable value is the value itself. -/

/-- The store fields the projection functions touch for one market. -/
structure MarketStore where
  workingData : AaveHealthFactorData
  availableAssets : List AssetDetails
  marketReferenceCurrencyPriceInUSD : ℚ
deriving Repr, DecidableEq

/-- `{ healthFactor: number | null, liquidationScenario: AssetDetails[] }`. -/
structure ProjectionResult where
  healthFactor : Option HFVal
  liquidationScenario : List AssetDetails
deriving Repr, DecidableEq

/-- Source: `getProjectedHealthFactorAfterSwapDebt`. -/
def getProjectedHealthFactorAfterSwapDebt (store : MarketStore)
    (sourceSymbol targetSymbol : String) (percentage : ℚ)
    (slippageBps : Option ℚ) : MarketStore × ProjectionResult :=
  let workingData := store.workingData
  let availableAssets := store.availableAssets
  let marketRefPrice := store.marketReferenceCurrencyPriceInUSD
  let borrows := workingData.userBorrowsData
  match borrows.find? (fun b => b.asset.symbol == sourceSymbol) with
  | none => (store, { healthFactor := none, liquidationScenario := [] })
  | some sourceItem =>
    if sourceItem.totalBorrows ≤ 0 ∨ sourceSymbol = targetSymbol then
      (store, { healthFactor := none, liquidationScenario := [] })
    else
      let mult := getSwapFeeMultiplierForSlippageBps (slippageBps.getD DEFAULT_SLIPPAGE_BPS)
      let swapUsd := sourceItem.totalBorrows * sourceItem.asset.priceInUSD * percentage
      match availableAssets.find? (fun a => a.symbol == targetSymbol) with
      | none => (store, { healthFactor := none, liquidationScenario := [] })
      | some targetAsset =>
        if isBorrowableAsset targetAsset = false then
          (store, { healthFactor := none, liquidationScenario := [] })
        else
          let targetPrice := if targetAsset.priceInUSD = 0 then 1
                             else targetAsset.priceInUSD
          let targetQuantity := swapUsd * mult / targetPrice
          let targetExisting := borrows.find? (fun b => b.asset.symbol == targetSymbol)
          let existingTargetQty := match targetExisting with
            | some t => t.totalBorrows
            | none => 0
          let clone := workingData
          let cloneBorrows1 := setBorrowQtyFirst clone.userBorrowsData sourceSymbol
            (sourceItem.totalBorrows * (1 - percentage))
          let cloneBorrows2 := match targetExisting with
            | some _ => setBorrowQtyFirst cloneBorrows1 targetSymbol
                (existingTargetQty + targetQuantity)
            | none => cloneBorrows1 ++
                [{ asset := { targetAsset with isNewlyAddedBySimUser := true }
                   totalBorrows := existingTargetQty + targetQuantity
                   totalBorrowsUSD := 0
                   totalBorrowsMarketReferenceCurrency := 0
                   stableBorrowAPY := targetAsset.stableBorrowAPY }]
          let updated := updateDerivedHealthFactorData
            { clone with userBorrowsData := cloneBorrows2 } marketRefPrice
          let liquidationScenario :=
            getCalculatedLiquidationScenario updated marketRefPrice
          (store, { healthFactor := some updated.healthFactor
                    liquidationScenario := liquidationScenario })

/-- Source: `getProjectedHealthFactorAfterSwapCollateral`. -/
def getProjectedHealthFactorAfterSwapCollateral (store : MarketStore)
    (sourceSymbol targetSymbol : String) (percentage : ℚ)
    (slippageBps : Option ℚ) (swapAmount : Option ℚ) :
    MarketStore × ProjectionResult :=
  let workingData := store.workingData
  let availableAssets := store.availableAssets
  let marketRefPrice := store.marketReferenceCurrencyPriceInUSD
  let reserves := workingData.userReservesData
  match reserves.find? (fun r => r.asset.symbol == sourceSymbol) with
  | none => (store, { healthFactor := none, liquidationScenario := [] })
  | some sourceItem =>
    if sourceItem.underlyingBalance ≤ 0 ∨ sourceSymbol = targetSymbol then
      (store, { healthFactor := none, liquidationScenario := [] })
    else
      let mult := getSwapFeeMultiplierForSlippageBps (slippageBps.getD DEFAULT_SLIPPAGE_BPS)
      let sourceUnitsToSwap := match swapAmount with
        | some a => if 0 < a then min a sourceItem.underlyingBalance
                    else sourceItem.underlyingBalance * percentage
        | none => sourceItem.underlyingBalance * percentage
      let swapUsd := sourceUnitsToSwap * sourceItem.asset.priceInUSD
      match availableAssets.find? (fun a => a.symbol == targetSymbol) with
      | none => (store, { healthFactor := none, liquidationScenario := [] })
      | some targetAsset =>
        if isSuppliableAsset targetAsset = false then
          (store, { healthFactor := none, liquidationScenario := [] })
        else
          let targetPrice := if targetAsset.priceInUSD = 0 then 1
                             else targetAsset.priceInUSD
          let targetQuantity := swapUsd * mult / targetPrice
          let targetExisting := reserves.find? (fun r => r.asset.symbol == targetSymbol)
          let existingTargetQty := match targetExisting with
            | some t => t.underlyingBalance
            | none => 0
          let clone := workingData
          let cloneReserves1 := setReserveQtyFirst clone.userReservesData sourceSymbol
            (sourceItem.underlyingBalance - sourceUnitsToSwap)
          let cloneReserves2 := match targetExisting with
            | some _ => setReserveQtyFirst cloneReserves1 targetSymbol
                (existingTargetQty + targetQuantity)
            | none => cloneReserves1 ++
                [{ asset := { targetAsset with isNewlyAddedBySimUser := true }
                   underlyingBalance := existingTargetQty + targetQuantity
                   underlyingBalanceUSD := 0
                   underlyingBalanceMarketReferenceCurrency := 0
                   usageAsCollateralEnabledOnUser := targetAsset.usageAsCollateralEnabled }]
          let updated := updateDerivedHealthFactorData
            { clone with userReservesData := cloneReserves2 } marketRefPrice
          let liquidationScenario :=
            getCalculatedLiquidationScenario updated marketRefPrice
          (store, { healthFactor := some updated.healthFactor
                    liquidationScenario := liquidationScenario })

/-- Source: `getProjectedHealthFactorAfterRepay`. -/
def getProjectedHealthFactorAfterRepay (store : MarketStore)
    (params : RepayParams) : MarketStore × ProjectionResult :=
  let workingData := store.workingData
  let marketRefPrice := store.marketReferenceCurrencyPriceInUSD
  let borrows := workingData.userBorrowsData
  match borrows.find? (fun b => b.asset.symbol == params.debtSymbol) with
  | none => (store, { healthFactor := none, liquidationScenario := [] })
  | some debtItem =>
    if debtItem.totalBorrows ≤ 0 then
      (store, { healthFactor := none, liquidationScenario := [] })
    else
      match params.mode, params.manualAmount with
      | .manual, some manualAmount =>
        let amount := max 0 manualAmount
        let newQty := max 0 (debtItem.totalBorrows - amount)
        let clone := workingData
        let updated := updateDerivedHealthFactorData
          { clone with userBorrowsData :=
              setBorrowQtyFirst clone.userBorrowsData params.debtSymbol newQty }
          marketRefPrice
        let liquidationScenario :=
          getCalculatedLiquidationScenario updated marketRefPrice
        (store, { healthFactor := some updated.healthFactor
                  liquidationScenario := liquidationScenario })
      | .manual, none => (store, { healthFactor := none, liquidationScenario := [] })
      | .collateral, _ =>
        match params.collateralSymbol with
        | none => (store, { healthFactor := none, liquidationScenario := [] })
        | some collateralSymbol =>
          let repayAmtPositive := match params.collateralRepayAmount with
            | some a => decide (0 < a)
            | none => false
          if params.percentage = none ∧ repayAmtPositive = false then
            (store, { healthFactor := none, liquidationScenario := [] })
          else
            let debtReduceUnitsTarget := match params.collateralRepayAmount with
              | some a =>
                if 0 < a then min a debtItem.totalBorrows
                else (params.percentage.getD 0) * debtItem.totalBorrows
              | none => (params.percentage.getD 0) * debtItem.totalBorrows
            match workingData.userReservesData.find?
                (fun r => r.asset.symbol == collateralSymbol) with
            | none => (store, { healthFactor := none, liquidationScenario := [] })
            | some collateralItem =>
              if collateralItem.underlyingBalance ≤ 0 ∨ debtReduceUnitsTarget ≤ 0 then
                (store, { healthFactor := none, liquidationScenario := [] })
              else
                let debtPrice := if debtItem.asset.priceInUSD = 0 then 1
                                 else debtItem.asset.priceInUSD
                let debtReduceUsdTarget := debtReduceUnitsTarget * debtPrice
                let collateralPrice := if collateralItem.asset.priceInUSD = 0 then 1
                                       else collateralItem.asset.priceInUSD
                let bonus := match params.liquidationBonusPct with
                  | some b => if 0 < b then b / 100 else 0
                  | none => 0
                let units :=
                  if 0 < bonus then
                    let collateralUsdSeized := debtReduceUsdTarget * (1 + bonus)
                    let collateralUnitsSeized := collateralUsdSeized / collateralPrice
                    let used := min collateralUnitsSeized collateralItem.underlyingBalance
                    let actualCollateralUsdSeized := used * collateralPrice
                    (used,
                     min (actualCollateralUsdSeized / (1 + bonus) / debtPrice)
                       debtItem.totalBorrows)
                  else
                    let mult := getSwapFeeMultiplierForSlippageBps
                      (params.slippageBps.getD DEFAULT_SLIPPAGE_BPS)
                    let collateralUsdNeeded := debtReduceUsdTarget / mult
                    let collateralUnitsNeeded := collateralUsdNeeded / collateralPrice
                    let used := min collateralUnitsNeeded collateralItem.underlyingBalance
                    let actualReceiveUsd := used * collateralPrice * mult
                    (used, min (actualReceiveUsd / debtPrice) debtItem.totalBorrows)
                let newCollateralQty :=
                  max 0 (collateralItem.underlyingBalance - units.1)
                let newDebtQty := max 0 (debtItem.totalBorrows - units.2)
                let clone := workingData
                let updated := updateDerivedHealthFactorData
                  { clone with
                    userBorrowsData :=
                      setBorrowQtyFirst clone.userBorrowsData params.debtSymbol newDebtQty
                    userReservesData :=
                      setReserveQtyFirst clone.userReservesData collateralSymbol
                        newCollateralQty }
                  marketRefPrice
                let liquidationScenario :=
                  getCalculatedLiquidationScenario updated marketRefPrice
                (store, { healthFactor := some updated.healthFactor
                          liquidationScenario := liquidationScenario })

/-- Source: `getProjectedHealthFactorAfterBorrow`. -/
def getProjectedHealthFactorAfterBorrow (store : MarketStore)
    (symbol : String) (additionalUnits : ℚ) : MarketStore × ProjectionResult :=
  let workingData := store.workingData
  let marketRefPrice := store.marketReferenceCurrencyPriceInUSD
  let availableAssets := store.availableAssets
  if additionalUnits ≤ 0 then
    (store, { healthFactor := none, liquidationScenario := [] })
  else
    let clone := workingData
    match clone.userBorrowsData.find? (fun b => b.asset.symbol == symbol) with
    | some existing =>
      let updated := updateDerivedHealthFactorData
        { clone with userBorrowsData :=
            setBorrowQtyFirst clone.userBorrowsData symbol (existing.totalBorrows + additionalUnits) }
        marketRefPrice
      let liquidationScenario :=
        getCalculatedLiquidationScenario updated marketRefPrice
      (store, { healthFactor := some updated.healthFactor
                liquidationScenario := liquidationScenario })
    | none =>
      match availableAssets.find? (fun a => a.symbol == symbol) with
      | none => (store, { healthFactor := none, liquidationScenario := [] })
      | some asset =>
        if isBorrowableAsset asset = false then
          (store, { healthFactor := none, liquidationScenario := [] })
        else
          let newBorrow : BorrowedAssetDataItem :=
            { asset := asset
              totalBorrows := additionalUnits
              totalBorrowsUSD := 0
              totalBorrowsMarketReferenceCurrency := 0
              stableBorrowAPY := 0 }
          let updated := updateDerivedHealthFactorData
            { clone with userBorrowsData := clone.userBorrowsData ++ [newBorrow] }
            marketRefPrice
          let liquidationScenario :=
            getCalculatedLiquidationScenario updated marketRefPrice
          (store, { healthFactor := some updated.healthFactor
                    liquidationScenario := liquidationScenario })

/-! ## Well-formedness of positions

The data model's line items carry nonnegative unit balances, nonnegative USD
prices and nonnegative risk parameters (basis points). -/

def WellFormedPosition (d : AaveHealthFactorData) : Prop :=
  (∀ r ∈ d.userReservesData,
      0 ≤ r.underlyingBalance ∧ 0 ≤ r.asset.priceInUSD ∧
      0 ≤ r.asset.reserveLiquidationThreshold ∧
      0 ≤ r.asset.eModeLiquidationThreshold ∧
      0 ≤ r.asset.baseLTVasCollateral ∧ 0 ≤ r.asset.eModeLtv) ∧
  (∀ b ∈ d.userBorrowsData, 0 ≤ b.totalBorrows ∧ 0 ≤ b.asset.priceInUSD)

instance (d : AaveHealthFactorData) : Decidable (WellFormedPosition d) := by
  unfold WellFormedPosition
  infer_instance

/-! ## Concrete positions used to exercise the theorems -/

/-- A plain active, borrowable, suppliable asset with the given USD price and
risk parameters (basis points). -/
def mkStdAsset (sym : String) (price ltvBps ltBps : ℚ) : AssetDetails :=
  { symbol := sym
    priceInUSD := price
    priceInMarketReferenceCurrency := 0
    baseLTVasCollateral := ltvBps
    reserveLiquidationThreshold := ltBps
    eModeLtv := 0
    eModeLiquidationThreshold := 0
    eModeCategoryId := 0
    isActive := true
    isFrozen := false
    isPaused := false
    borrowingEnabled := true
    usageAsCollateralEnabled := true
    flashLoanEnabled := false
    stableBorrowAPY := 0
    isNewlyAddedBySimUser := false }

/-- A position skeleton with zeroed derived fields. -/
def mkPosition (rs : List ReserveAssetDataItem) (bs : List BorrowedAssetDataItem) :
    AaveHealthFactorData :=
  { healthFactor := .fin 0
    totalBorrowsUSD := 0
    availableBorrowsUSD := 0
    totalCollateralMarketReferenceCurrency := 0
    totalBorrowsMarketReferenceCurrency := 0
    currentLiquidationThreshold := 0
    currentLoanToValue := 0
    userReservesData := rs
    userBorrowsData := bs
    userEmodeCategoryId := 0 }

def mkReserveItem (a : AssetDetails) (bal : ℚ) : ReserveAssetDataItem :=
  { asset := a
    underlyingBalance := bal
    underlyingBalanceUSD := 0
    underlyingBalanceMarketReferenceCurrency := 0
    usageAsCollateralEnabledOnUser := true }

def mkBorrowItem (a : AssetDetails) (q : ℚ) : BorrowedAssetDataItem :=
  { asset := a
    totalBorrows := q
    totalBorrowsUSD := 0
    totalBorrowsMarketReferenceCurrency := 0
    stableBorrowAPY := 0 }

def cbBTCAsset : AssetDetails := mkStdAsset "cbBTC" 60000 7500 7800

def usdcAsset : AssetDetails := mkStdAsset "USDC" 1 7700 7800

def daiAsset : AssetDetails := mkStdAsset "DAI" 1 7700 7800

def wethAsset : AssetDetails := mkStdAsset "WETH" 2000 8000 8200

/-- One cbBTC reserve (1.0 unit at $60,000) against a 40,000-unit USDC borrow,
market reference price 1, derived fields zeroed. -/
def demoPositionRaw : AaveHealthFactorData :=
  mkPosition [mkReserveItem cbBTCAsset 1] [mkBorrowItem usdcAsset 40000]

/-- `demoPositionRaw` with its derived metrics computed. -/
def demoPosition : AaveHealthFactorData :=
  updateDerivedHealthFactorData demoPositionRaw 1

/-- 10 WETH of collateral against a 10,000-unit USDC borrow (prices $2,000 and
$1), derived metrics zeroed. -/
def wethUsdcPosition : AaveHealthFactorData :=
  mkPosition [mkReserveItem wethAsset 10] [mkBorrowItem usdcAsset 10000]

/-- Catalog used by the swap simulations. -/
def demoCatalog : List AssetDetails := [usdcAsset, daiAsset, wethAsset, cbBTCAsset]

/-- A position holding a non-stablecoin (WETH) borrow. -/
def nonStableBorrowPosition : AaveHealthFactorData :=
  mkPosition [mkReserveItem cbBTCAsset 1] [mkBorrowItem wethAsset 2]

/-- A position with collateral-enabled reserves whose balances sum to a
negative collateral value while the weighted threshold stays positive: one
zero-threshold reserve with a negative balance next to a positive one. -/
def negCollateralPosition : AaveHealthFactorData :=
  mkPosition
    [mkReserveItem (mkStdAsset "AAA" 1 0 0) (-10),
     mkReserveItem (mkStdAsset "BBB" 1 3000 4000) 5]
    []

/-! # Theorems -/

theorem eraseDerivedR_updReserveItem (mrp : ℚ) (r : ReserveAssetDataItem) :
    eraseDerivedR (updReserveItem mrp r) = eraseDerivedR r := rfl

theorem eraseDerivedB_updBorrowItem (mrp : ℚ) (b : BorrowedAssetDataItem) :
    eraseDerivedB (updBorrowItem mrp b) = eraseDerivedB b := rfl

theorem updReserveItem_eraseDerivedR (mrp : ℚ) (r : ReserveAssetDataItem) :
    updReserveItem mrp (eraseDerivedR r) = updReserveItem mrp r := rfl

theorem updBorrowItem_eraseDerivedB (mrp : ℚ) (b : BorrowedAssetDataItem) :
    updBorrowItem mrp (eraseDerivedB b) = updBorrowItem mrp b := rfl

theorem weightedCollAcc_map_eraseDerivedR (e : ℕ) (rs : List ReserveAssetDataItem)
    (mrp : ℚ) : weightedCollAcc e (rs.map eraseDerivedR) mrp = weightedCollAcc e rs mrp := by
  unfold weightedCollAcc
  rw [List.foldl_map]
  rfl

theorem debtAcc_map_eraseDerivedB (bs : List BorrowedAssetDataItem) (mrp : ℚ) :
    debtAcc (bs.map eraseDerivedB) mrp = debtAcc bs mrp := by
  unfold debtAcc
  rw [List.foldl_map]
  rfl

/-- The recompute pass factors through derived-field erasure. -/
theorem updateDerived_eraseDerived (d : AaveHealthFactorData) (mrp : ℚ) :
    updateDerivedHealthFactorData (eraseDerived d) mrp =
      updateDerivedHealthFactorData d mrp := by
  unfold updateDerivedHealthFactorData eraseDerived
  simp only [weightedCollAcc_map_eraseDerivedR, debtAcc_map_eraseDerivedB,
    List.map_map]
  rfl

/-- Two positions with the same essential data recompute identically. -/
theorem updateDerived_congr {d d' : AaveHealthFactorData} (mrp : ℚ)
    (h : eraseDerived d = eraseDerived d') :
    updateDerivedHealthFactorData d mrp = updateDerivedHealthFactorData d' mrp := by
  rw [← updateDerived_eraseDerived d mrp, ← updateDerived_eraseDerived d' mrp, h]

/-- The recompute pass leaves every essential field untouched. -/
theorem eraseDerived_updateDerived (d : AaveHealthFactorData) (mrp : ℚ) :
    eraseDerived (updateDerivedHealthFactorData d mrp) = eraseDerived d := by
  unfold updateDerivedHealthFactorData eraseDerived
  simp only [List.map_map]
  rfl

/-- The recompute pass is idempotent. -/
theorem updateDerived_idem (d : AaveHealthFactorData) (mrp : ℚ) :
    updateDerivedHealthFactorData (updateDerivedHealthFactorData d mrp) mrp =
      updateDerivedHealthFactorData d mrp :=
  updateDerived_congr mrp (eraseDerived_updateDerived d mrp)

theorem swapFeeBreakdown_receiveUsd (swapUsd : ℚ) (slippageBps : Option ℚ) :
    (getSwapFeeBreakdown swapUsd slippageBps).receiveUsd =
      swapUsd * getSwapFeeMultiplierForSlippageBps
        (slippageBps.getD DEFAULT_SLIPPAGE_BPS) := by
  unfold getSwapFeeBreakdown getSwapFeeMultiplierForSlippageBps SWAP_FEE_BPS
    EXECUTION_FEE_BPS
  ring

/-- C10: the two fee-model code paths agree — for every notional amount and
every slippage value (supplied or defaulted), the additive breakdown's net
receive equals the notional times the multiplier form. -/
theorem C10_fee_paths_agree (swapUsd : ℚ) (slippageBps : Option ℚ) :
    (getSwapFeeBreakdown swapUsd slippageBps).receiveUsd =
      swapUsd * getSwapFeeMultiplierForSlippageBps
        (slippageBps.getD DEFAULT_SLIPPAGE_BPS) :=
  swapFeeBreakdown_receiveUsd swapUsd slippageBps

/-- C6: the derived-metrics recompute is idempotent — running
`updateDerivedHealthFactorData` twice in a row (same market reference price)
returns a position identical, in every line-item field and every derived
field, to the single run's output. -/
theorem C6_recompute_idempotent (d : AaveHealthFactorData) (mrp : ℚ) :
    updateDerivedHealthFactorData (updateDerivedHealthFactorData d mrp) mrp =
      updateDerivedHealthFactorData d mrp :=
  updateDerived_idem d mrp

/-- C5 counterexample: at slippage 10000 bps (100 %) the net receive is 0 and
the round trip returns 0, not the original notional 100 — the claim's
universal quantification over every slippage value fails. -/
theorem C5_counterexample :
    getCollateralUsdNeededForRepay
        ((getSwapFeeBreakdown 100 (some 10000)).receiveUsd) (some 10000) ≠ 100 := by
  decide

/-- C5 (amended): for every notional `x > 0` and every slippage other than
exactly 10000 bps, `getCollateralUsdNeededForRepay` inverts
`getSwapFeeBreakdown`'s net receive exactly. -/
theorem C5_fee_roundtrip (x s : ℚ) (hx : 0 < x) (hs : s ≠ 10000) :
    getCollateralUsdNeededForRepay
        ((getSwapFeeBreakdown x (some s)).receiveUsd) (some s) = x := by
  have hm : getSwapFeeMultiplierForSlippageBps s ≠ 0 := by
    unfold getSwapFeeMultiplierForSlippageBps SWAP_FEE_BPS EXECUTION_FEE_BPS
    intro h
    rcases mul_eq_zero.mp h with h' | h'
    · norm_num at h'
    · exact hs (by linarith)
  unfold getCollateralUsdNeededForRepay
  rw [swapFeeBreakdown_receiveUsd x (some s)]
  simp only [Option.getD_some]
  exact mul_div_cancel_right₀ x hm

theorem C5_fee_roundtrip_witness :
    (0 : ℚ) < 100 ∧ (100 : ℚ) ≠ 10000 ∧
      getCollateralUsdNeededForRepay
        ((getSwapFeeBreakdown 100 (some 100)).receiveUsd) (some 100) = 100 :=
  ⟨by norm_num, by norm_num, C5_fee_roundtrip 100 100 (by norm_num) (by norm_num)⟩

/-- C3 counterexample: swapping 50 % of a 10,000-unit USDC debt ($1) into DAI
($1) with default 150 bps slippage and 30 bps combined fee adds
5,000 × (1 − 0.003) × (1 − 0.015) = 4,910.225 DAI units, not the claimed
4,911.2625. -/
theorem C3_counterexample :
    ((simulateSwapDebt wethUsdcPosition demoCatalog 1 "USDC" "DAI" (1 / 2)
          none).userBorrowsData.find?
        (fun b => b.asset.symbol == "DAI")).map (fun b => b.totalBorrows) ≠
      some (49112625 / 10000) := by
  decide

/-- C3 (amended): the 50 % USDC→DAI swap reduces the USDC debt to exactly
5,000 units and adds exactly 5,000 × (1 − 0.003) × (1 − 0.015) = 4,910.225
units of DAI debt. -/
theorem C3_swap_debt_concrete :
    ((simulateSwapDebt wethUsdcPosition demoCatalog 1 "USDC" "DAI" (1 / 2)
          none).userBorrowsData.find?
        (fun b => b.asset.symbol == "USDC")).map (fun b => b.totalBorrows) =
      some 5000 ∧
    ((simulateSwapDebt wethUsdcPosition demoCatalog 1 "USDC" "DAI" (1 / 2)
          none).userBorrowsData.find?
        (fun b => b.asset.symbol == "DAI")).map (fun b => b.totalBorrows) =
      some (5000 * (1 - 3 / 1000) * (1 - 15 / 1000)) ∧
    (5000 * (1 - 3 / 1000) * (1 - 15 / 1000) : ℚ) = 4910225 / 1000 := by
  refine ⟨by decide, by decide, by norm_num⟩

/-- C4: a position holding any non-stablecoin borrow yields an empty
eligible-reserve selection and hence an empty liquidation scenario, regardless
of its collateral composition. -/
theorem C4_nonstable_borrow_empty_scenario (d : AaveHealthFactorData) (mrp : ℚ)
    (h : ∃ b ∈ d.userBorrowsData, isStablecoinAsset b.asset = false) :
    getEligibleLiquidationScenarioReserves d = [] ∧
      getCalculatedLiquidationScenario d mrp = [] := by
  have hany : d.userBorrowsData.any (fun b => !isStablecoinAsset b.asset) = true := by
    rcases h with ⟨b, hb, hs⟩
    exact List.any_eq_true.mpr ⟨b, hb, by simp [hs]⟩
  have he : getEligibleLiquidationScenarioReserves d = [] := by
    unfold getEligibleLiquidationScenarioReserves
    simp [hany]
  refine ⟨he, ?_⟩
  unfold getCalculatedLiquidationScenario
  simp [he]

theorem C4_witness :
    (∃ b ∈ nonStableBorrowPosition.userBorrowsData,
        isStablecoinAsset b.asset = false) ∧
      getEligibleLiquidationScenarioReserves nonStableBorrowPosition = [] ∧
      getCalculatedLiquidationScenario nonStableBorrowPosition 1 = [] :=
  ⟨by decide, C4_nonstable_borrow_empty_scenario nonStableBorrowPosition 1 (by decide)⟩

/-- C7: `simulateSwapDebt` is a silent no-op — the position is returned
completely unchanged — whenever the source symbol has no borrow line item, the
source borrow's units are ≤ 0, the source symbol equals the target symbol, or
the target symbol is not a borrowable asset of the catalog (absent, inactive,
paused, frozen or borrowing-disabled). -/
theorem C7_swap_debt_invalid_noop (d : AaveHealthFactorData)
    (availableAssets : List AssetDetails) (mrp : ℚ)
    (sourceSymbol targetSymbol : String) (percentage : ℚ)
    (slippageBps : Option ℚ)
    (h : d.userBorrowsData.find? (fun b => b.asset.symbol == sourceSymbol) = none ∨
      (∃ it, d.userBorrowsData.find? (fun b => b.asset.symbol == sourceSymbol) = some it ∧
        it.totalBorrows ≤ 0) ∨
      sourceSymbol = targetSymbol ∨
      availableAssets.find? (fun a => a.symbol == targetSymbol) = none ∨
      (∃ a, availableAssets.find? (fun a => a.symbol == targetSymbol) = some a ∧
        isBorrowableAsset a = false)) :
    simulateSwapDebt d availableAssets mrp sourceSymbol targetSymbol percentage
      slippageBps = d := by
  unfold simulateSwapDebt
  rcases h with h | ⟨it, hit, hle⟩ | h | h | ⟨a, ha, hb⟩
  · simp [h]
  · rw [hit]
    simp [hle]
  · cases hs : d.userBorrowsData.find? (fun b => b.asset.symbol == sourceSymbol) with
    | none => simp
    | some it => simp [h]
  · cases hs : d.userBorrowsData.find? (fun b => b.asset.symbol == sourceSymbol) with
    | none => simp
    | some it =>
      by_cases hc : it.totalBorrows ≤ 0 ∨ sourceSymbol = targetSymbol
      · simp [hc]
      · simp [hc, h]
  · cases hs : d.userBorrowsData.find? (fun b => b.asset.symbol == sourceSymbol) with
    | none => simp
    | some it =>
      by_cases hc : it.totalBorrows ≤ 0 ∨ sourceSymbol = targetSymbol
      · simp [hc]
      · simp [hc, ha, hb]

theorem C7_witness :
    ((wethUsdcPosition.userBorrowsData.find?
        (fun b => b.asset.symbol == "USDC") = none ∨
      (∃ it, wethUsdcPosition.userBorrowsData.find?
          (fun b => b.asset.symbol == "USDC") = some it ∧ it.totalBorrows ≤ 0) ∨
      "USDC" = "USDC" ∨
      demoCatalog.find? (fun a => a.symbol == "USDC") = none ∨
      (∃ a, demoCatalog.find? (fun a => a.symbol == "USDC") = some a ∧
        isBorrowableAsset a = false)) ∧
      simulateSwapDebt wethUsdcPosition demoCatalog 1 "USDC" "USDC" (1 / 2) none =
        wethUsdcPosition) :=
  ⟨Or.inr (Or.inr (Or.inl rfl)),
   C7_swap_debt_invalid_noop wethUsdcPosition demoCatalog 1 "USDC" "USDC" (1 / 2)
     none (Or.inr (Or.inr (Or.inl rfl)))⟩

/-- The reserve-item nonnegativity hypotheses used by the accumulator
lemma. -/
def ReserveNN (r : ReserveAssetDataItem) : Prop :=
  0 ≤ r.underlyingBalance ∧ 0 ≤ r.asset.priceInUSD ∧
  0 ≤ r.asset.reserveLiquidationThreshold ∧
  0 ≤ r.asset.eModeLiquidationThreshold ∧
  0 ≤ r.asset.baseLTVasCollateral ∧ 0 ≤ r.asset.eModeLtv

theorem collStep_nonneg (e : ℕ) (mrp : ℚ) (hmrp : 0 ≤ mrp)
    (acc : ℚ × ℚ × ℚ) (r : ReserveAssetDataItem) (hr : ReserveNN r)
    (h1 : 0 ≤ acc.1) (h2 : 0 ≤ acc.2.1) (h3 : 0 ≤ acc.2.2) :
    0 ≤ (collStep e mrp acc r).1 ∧ 0 ≤ (collStep e mrp acc r).2.1 ∧
      0 ≤ (collStep e mrp acc r).2.2 := by
  obtain ⟨hb, hp, hlt, helt, hltv, heltv⟩ := hr
  have hbal : 0 ≤ (r.asset.priceInUSD / mrp) * r.underlyingBalance :=
    mul_nonneg (div_nonneg hp hmrp) hb
  have hle : 0 ≤ effLiquidationThreshold e r.asset := by
    unfold effLiquidationThreshold
    split <;> assumption
  have hlv : 0 ≤ effLoanToValue e r.asset := by
    unfold effLoanToValue
    split <;> assumption
  unfold collStep
  split
  · refine ⟨by positivity, ?_, ?_⟩
    · exact add_nonneg h2 (mul_nonneg (by positivity) hbal)
    · exact add_nonneg h3 (mul_nonneg (by positivity) hbal)
  · exact ⟨h1, h2, h3⟩

theorem collFold_nonneg (e : ℕ) (mrp : ℚ) (hmrp : 0 ≤ mrp) :
    ∀ (rs : List ReserveAssetDataItem) (acc : ℚ × ℚ × ℚ),
      (∀ r ∈ rs, ReserveNN r) → 0 ≤ acc.1 → 0 ≤ acc.2.1 → 0 ≤ acc.2.2 →
      0 ≤ (rs.foldl (collStep e mrp) acc).1 ∧
        0 ≤ (rs.foldl (collStep e mrp) acc).2.1 ∧
        0 ≤ (rs.foldl (collStep e mrp) acc).2.2
  | [], acc, _, h1, h2, h3 => ⟨h1, h2, h3⟩
  | r :: rs, acc, h, h1, h2, h3 => by
    have hr := h r (List.mem_cons_self r rs)
    obtain ⟨g1, g2, g3⟩ := collStep_nonneg e mrp hmrp acc r hr h1 h2 h3
    exact collFold_nonneg e mrp hmrp rs (collStep e mrp acc r)
      (fun x hx => h x (List.mem_cons_of_mem r hx)) g1 g2 g3

theorem weightedCollAcc_nonneg (e : ℕ) (mrp : ℚ) (hmrp : 0 ≤ mrp)
    (rs : List ReserveAssetDataItem) (h : ∀ r ∈ rs, ReserveNN r) :
    0 ≤ (weightedCollAcc e rs mrp).1 ∧ 0 ≤ (weightedCollAcc e rs mrp).2.1 ∧
      0 ≤ (weightedCollAcc e rs mrp).2.2 :=
  collFold_nonneg e mrp hmrp rs (0, 0, 0) h le_rfl le_rfl le_rfl

/-- C1 counterexample: in a position whose collateral-enabled balances sum to
a negative collateral value while the weighted threshold stays positive, the
recompute pass leaves the liquidation threshold at 0 instead of the claimed
`weighted_threshold / collateral_MRC` — so the claim does not hold for every
position. -/
theorem C1_counterexample :
    (weightedCollAcc negCollateralPosition.userEmodeCategoryId
        negCollateralPosition.userReservesData 1).1 ≠ 0 ∧
    (updateDerivedHealthFactorData negCollateralPosition 1).currentLiquidationThreshold ≠
      (weightedCollAcc negCollateralPosition.userEmodeCategoryId
          negCollateralPosition.userReservesData 1).2.1 /
        (weightedCollAcc negCollateralPosition.userEmodeCategoryId
            negCollateralPosition.userReservesData 1).1 := by
  decide

/-- C1 (amended): for every position whose line items carry nonnegative
balances, prices and risk parameters and every positive market reference
price, one recompute pass establishes the claimed derived-field formulas:
`liquidation_threshold = weighted_threshold / collateral_MRC` (0 when the
collateral is 0), likewise for the loan-to-value, the health factor
`collateral × threshold / debt` when debt > 0 (in particular 0 when the
collateral is 0), `+∞` when debt = 0, and
`availableBorrowsUSD = max 0 (collateral × ltv − debt) × marketRefPrice`. -/
theorem C1_derived_metrics (d : AaveHealthFactorData) (mrp : ℚ)
    (hw : WellFormedPosition d) (hmrp : 0 < mrp) :
    (updateDerivedHealthFactorData d mrp).currentLiquidationThreshold =
      (if (weightedCollAcc d.userEmodeCategoryId d.userReservesData mrp).1 = 0 then 0
       else (weightedCollAcc d.userEmodeCategoryId d.userReservesData mrp).2.1 /
         (weightedCollAcc d.userEmodeCategoryId d.userReservesData mrp).1) ∧
    (updateDerivedHealthFactorData d mrp).currentLoanToValue =
      (if (weightedCollAcc d.userEmodeCategoryId d.userReservesData mrp).1 = 0 then 0
       else (weightedCollAcc d.userEmodeCategoryId d.userReservesData mrp).2.2 /
         (weightedCollAcc d.userEmodeCategoryId d.userReservesData mrp).1) ∧
    (0 < debtAcc d.userBorrowsData mrp →
      (updateDerivedHealthFactorData d mrp).healthFactor =
        .fin ((weightedCollAcc d.userEmodeCategoryId d.userReservesData mrp).1 *
          (updateDerivedHealthFactorData d mrp).currentLiquidationThreshold /
          debtAcc d.userBorrowsData mrp)) ∧
    (debtAcc d.userBorrowsData mrp = 0 →
      (updateDerivedHealthFactorData d mrp).healthFactor = .inf) ∧
    ((weightedCollAcc d.userEmodeCategoryId d.userReservesData mrp).1 = 0 →
      0 < debtAcc d.userBorrowsData mrp →
      (updateDerivedHealthFactorData d mrp).healthFactor = .fin 0) ∧
    (updateDerivedHealthFactorData d mrp).availableBorrowsUSD =
      max 0 ((weightedCollAcc d.userEmodeCategoryId d.userReservesData mrp).1 *
        (updateDerivedHealthFactorData d mrp).currentLoanToValue -
        debtAcc d.userBorrowsData mrp) * mrp := by
  obtain ⟨hres, _⟩ := hw
  have hnn := weightedCollAcc_nonneg d.userEmodeCategoryId mrp (le_of_lt hmrp)
    d.userReservesData (fun r hr => hres r hr)
  set acc := weightedCollAcc d.userEmodeCategoryId d.userReservesData mrp with hacc
  obtain ⟨hc, hw1, hw2⟩ := hnn
  set debt := debtAcc d.userBorrowsData mrp with hdebt
  have hlt : (updateDerivedHealthFactorData d mrp).currentLiquidationThreshold =
      (if 0 < acc.2.1 ∧ 0 < acc.1 then acc.2.1 / acc.1 else 0) := rfl
  have hltv : (updateDerivedHealthFactorData d mrp).currentLoanToValue =
      (if 0 < acc.2.2 ∧ 0 < acc.1 then acc.2.2 / acc.1 else 0) := rfl
  have hhf : (updateDerivedHealthFactorData d mrp).healthFactor =
      (if 0 < acc.1 ∧ 0 < debt ∧
          0 < (if 0 < acc.2.1 ∧ 0 < acc.1 then acc.2.1 / acc.1 else 0) then
        HFVal.fin (acc.1 * (if 0 < acc.2.1 ∧ 0 < acc.1 then acc.2.1 / acc.1 else 0) / debt)
       else if debt = 0 then HFVal.inf else HFVal.fin 0) := rfl
  have hav : (updateDerivedHealthFactorData d mrp).availableBorrowsUSD =
      (if (acc.1 * (if 0 < acc.2.2 ∧ 0 < acc.1 then acc.2.2 / acc.1 else 0) - debt) * mrp < 0
       then 0
       else (acc.1 * (if 0 < acc.2.2 ∧ 0 < acc.1 then acc.2.2 / acc.1 else 0) - debt) * mrp) := rfl
  have goal1 : (updateDerivedHealthFactorData d mrp).currentLiquidationThreshold =
      (if acc.1 = 0 then 0 else acc.2.1 / acc.1) := by
    rw [hlt]
    rcases eq_or_lt_of_le hc with hz | hpos
    · simp [← hz]
    · rcases eq_or_lt_of_le hw1 with wz | wpos
      · simp [ne_of_gt hpos, ← wz, not_lt_of_ge (le_of_eq wz.symm)]
      · simp [ne_of_gt hpos, hpos, wpos]
  have goal2 : (updateDerivedHealthFactorData d mrp).currentLoanToValue =
      (if acc.1 = 0 then 0 else acc.2.2 / acc.1) := by
    rw [hltv]
    rcases eq_or_lt_of_le hc with hz | hpos
    · simp [← hz]
    · rcases eq_or_lt_of_le hw2 with wz | wpos
      · simp [ne_of_gt hpos, ← wz, not_lt_of_ge (le_of_eq wz.symm)]
      · simp [ne_of_gt hpos, hpos, wpos]
  refine ⟨goal1, goal2, ?_, ?_, ?_, ?_⟩
  · intro hd
    rw [hhf, hlt]
    rcases eq_or_lt_of_le hc with hz | hpos
    · simp [← hz, not_lt_of_ge (le_of_eq hz), ne_of_gt hd]
    · rcases eq_or_lt_of_le hw1 with wz | wpos
      · simp [hpos, hd, ← wz, not_lt_of_ge (le_of_eq wz.symm), ne_of_gt hd]
      · have hltpos : 0 < acc.2.1 / acc.1 := div_pos wpos hpos
        simp [hpos, hd, wpos, hltpos]
  · intro hd
    rw [hhf]
    simp [hd]
  · intro hz hd
    rw [hhf]
    simp [hz, not_lt_of_ge (le_of_eq hz.symm), ne_of_gt hd]
  · have hltv_eq : (if 0 < acc.2.2 ∧ 0 < acc.1 then acc.2.2 / acc.1 else 0) =
        (if acc.1 = 0 then 0 else acc.2.2 / acc.1) := by
      rw [← hltv, goal2]
    rw [hav, hltv_eq, goal2]
    rcases le_or_lt 0 (acc.1 * (if acc.1 = 0 then 0 else acc.2.2 / acc.1) - debt) with hge | hlt0
    · rw [if_neg (not_lt_of_ge (mul_nonneg hge (le_of_lt hmrp))), max_eq_right hge]
    · rw [if_pos (mul_neg_of_neg_of_pos hlt0 hmrp), max_eq_left (le_of_lt hlt0), zero_mul]

theorem C1_derived_metrics_witness :
    WellFormedPosition demoPositionRaw ∧ (0 : ℚ) < 1 ∧
      ((updateDerivedHealthFactorData demoPositionRaw 1).currentLiquidationThreshold =
        (if (weightedCollAcc demoPositionRaw.userEmodeCategoryId
              demoPositionRaw.userReservesData 1).1 = 0 then 0
         else (weightedCollAcc demoPositionRaw.userEmodeCategoryId
             demoPositionRaw.userReservesData 1).2.1 /
           (weightedCollAcc demoPositionRaw.userEmodeCategoryId
             demoPositionRaw.userReservesData 1).1) ∧
      (updateDerivedHealthFactorData demoPositionRaw 1).currentLoanToValue =
        (if (weightedCollAcc demoPositionRaw.userEmodeCategoryId
              demoPositionRaw.userReservesData 1).1 = 0 then 0
         else (weightedCollAcc demoPositionRaw.userEmodeCategoryId
             demoPositionRaw.userReservesData 1).2.2 /
           (weightedCollAcc demoPositionRaw.userEmodeCategoryId
             demoPositionRaw.userReservesData 1).1) ∧
      (0 < debtAcc demoPositionRaw.userBorrowsData 1 →
        (updateDerivedHealthFactorData demoPositionRaw 1).healthFactor =
          .fin ((weightedCollAcc demoPositionRaw.userEmodeCategoryId
              demoPositionRaw.userReservesData 1).1 *
            (updateDerivedHealthFactorData demoPositionRaw 1).currentLiquidationThreshold /
            debtAcc demoPositionRaw.userBorrowsData 1)) ∧
      (debtAcc demoPositionRaw.userBorrowsData 1 = 0 →
        (updateDerivedHealthFactorData demoPositionRaw 1).healthFactor = .inf) ∧
      ((weightedCollAcc demoPositionRaw.userEmodeCategoryId
          demoPositionRaw.userReservesData 1).1 = 0 →
        0 < debtAcc demoPositionRaw.userBorrowsData 1 →
        (updateDerivedHealthFactorData demoPositionRaw 1).healthFactor = .fin 0) ∧
      (updateDerivedHealthFactorData demoPositionRaw 1).availableBorrowsUSD =
        max 0 ((weightedCollAcc demoPositionRaw.userEmodeCategoryId
            demoPositionRaw.userReservesData 1).1 *
          (updateDerivedHealthFactorData demoPositionRaw 1).currentLoanToValue -
          debtAcc demoPositionRaw.userBorrowsData 1) * 1) :=
  ⟨by decide, by norm_num,
   C1_derived_metrics demoPositionRaw 1 (by decide) (by norm_num)⟩

/-! ### Tracking line items through quantity writes and recomputes -/

theorem find?_reserve_map_upd (mrp : ℚ) (rs : List ReserveAssetDataItem)
    (sym : String) :
    (rs.map (updReserveItem mrp)).find? (fun r => r.asset.symbol == sym) =
      (rs.find? (fun r => r.asset.symbol == sym)).map (updReserveItem mrp) := by
  rw [List.find?_map]
  rfl

theorem find?_borrow_map_upd (mrp : ℚ) (bs : List BorrowedAssetDataItem)
    (sym : String) :
    (bs.map (updBorrowItem mrp)).find? (fun b => b.asset.symbol == sym) =
      (bs.find? (fun b => b.asset.symbol == sym)).map (updBorrowItem mrp) := by
  rw [List.find?_map]
  rfl

theorem find?_setReserveQtyFirst_self (sym : String) (q : ℚ) :
    ∀ (rs : List ReserveAssetDataItem) (r : ReserveAssetDataItem),
      rs.find? (fun x => x.asset.symbol == sym) = some r →
      (setReserveQtyFirst rs sym q).find? (fun x => x.asset.symbol == sym) =
        some { r with underlyingBalance := q }
  | [], r, h => by simp at h
  | a :: as, r, h => by
    by_cases ha : a.asset.symbol == sym
    · simp only [List.find?, ha] at h
      cases h
      unfold setReserveQtyFirst
      rw [if_pos ha]
      simp only [List.find?, ha]
    · rw [Bool.not_eq_true] at ha
      simp only [List.find?, ha] at h
      unfold setReserveQtyFirst
      rw [if_neg (by simp [ha])]
      simp only [List.find?, ha]
      exact find?_setReserveQtyFirst_self sym q as r h

theorem find?_setBorrowQtyFirst_self (sym : String) (q : ℚ) :
    ∀ (bs : List BorrowedAssetDataItem) (b : BorrowedAssetDataItem),
      bs.find? (fun x => x.asset.symbol == sym) = some b →
      (setBorrowQtyFirst bs sym q).find? (fun x => x.asset.symbol == sym) =
        some { b with totalBorrows := q }
  | [], b, h => by simp at h
  | a :: as, b, h => by
    by_cases ha : a.asset.symbol == sym
    · simp only [List.find?, ha] at h
      cases h
      unfold setBorrowQtyFirst
      rw [if_pos ha]
      simp only [List.find?, ha]
    · rw [Bool.not_eq_true] at ha
      simp only [List.find?, ha] at h
      unfold setBorrowQtyFirst
      rw [if_neg (by simp [ha])]
      simp only [List.find?, ha]
      exact find?_setBorrowQtyFirst_self sym q as b h

/-- Writing a reserve balance leaves every borrow line item untouched, and the
subsequent recompute preserves each borrow's quantity. -/
theorem borrow_qty_after_setReserveAssetQuantity (d : AaveHealthFactorData)
    (mrp : ℚ) (sym : String) (q : ℚ) (sym' : String) :
    ((setReserveAssetQuantity d mrp sym q).userBorrowsData.find?
        (fun x => x.asset.symbol == sym')).map (fun x => x.totalBorrows) =
      (d.userBorrowsData.find? (fun x => x.asset.symbol == sym')).map
        (fun x => x.totalBorrows) := by
  unfold setReserveAssetQuantity
  cases hf : d.userReservesData.find? (fun r => r.asset.symbol == sym) with
  | none =>
    dsimp only
    simp only [updateDerivedHealthFactorData, find?_borrow_map_upd]
    cases d.userBorrowsData.find? (fun x => x.asset.symbol == sym') <;> rfl
  | some item =>
    dsimp only
    by_cases hq : item.underlyingBalance ≠ q
    · rw [if_pos hq]
      simp only [updateDerivedHealthFactorData, find?_borrow_map_upd]
      cases d.userBorrowsData.find? (fun x => x.asset.symbol == sym') <;> rfl
    · rw [if_neg hq]

/-- Writing a borrow quantity leaves every reserve balance untouched. -/
theorem reserve_qty_after_setBorrowedAssetQuantity (d : AaveHealthFactorData)
    (mrp : ℚ) (sym : String) (q : ℚ) (sym' : String) :
    ((setBorrowedAssetQuantity d mrp sym q).userReservesData.find?
        (fun x => x.asset.symbol == sym')).map (fun x => x.underlyingBalance) =
      (d.userReservesData.find? (fun x => x.asset.symbol == sym')).map
        (fun x => x.underlyingBalance) := by
  unfold setBorrowedAssetQuantity
  cases hf : d.userBorrowsData.find? (fun b => b.asset.symbol == sym) with
  | none =>
    dsimp only
    simp only [updateDerivedHealthFactorData, find?_reserve_map_upd]
    cases d.userReservesData.find? (fun x => x.asset.symbol == sym') <;> rfl
  | some item =>
    dsimp only
    by_cases hq : item.totalBorrows ≠ q
    · rw [if_pos hq]
      simp only [updateDerivedHealthFactorData, find?_reserve_map_upd]
      cases d.userReservesData.find? (fun x => x.asset.symbol == sym') <;> rfl
    · rw [if_neg hq]

/-- After `setReserveAssetQuantity`, the addressed reserve holds the written
balance. -/
theorem reserve_qty_after_setReserveAssetQuantity (d : AaveHealthFactorData)
    (mrp : ℚ) (sym : String) (q : ℚ) (r : ReserveAssetDataItem)
    (h : d.userReservesData.find? (fun x => x.asset.symbol == sym) = some r) :
    ((setReserveAssetQuantity d mrp sym q).userReservesData.find?
        (fun x => x.asset.symbol == sym)).map (fun x => x.underlyingBalance) =
      some q := by
  unfold setReserveAssetQuantity
  rw [h]
  dsimp only
  by_cases hq : r.underlyingBalance ≠ q
  · rw [if_pos hq]
    simp only [updateDerivedHealthFactorData, find?_reserve_map_upd]
    rw [find?_setReserveQtyFirst_self sym q d.userReservesData r h]
    rfl
  · rw [if_neg hq]
    rw [h]
    push_neg at hq
    simp [hq]

/-- After `setBorrowedAssetQuantity`, the addressed borrow holds the written
quantity. -/
theorem borrow_qty_after_setBorrowedAssetQuantity (d : AaveHealthFactorData)
    (mrp : ℚ) (sym : String) (q : ℚ) (b : BorrowedAssetDataItem)
    (h : d.userBorrowsData.find? (fun x => x.asset.symbol == sym) = some b) :
    ((setBorrowedAssetQuantity d mrp sym q).userBorrowsData.find?
        (fun x => x.asset.symbol == sym)).map (fun x => x.totalBorrows) =
      some q := by
  unfold setBorrowedAssetQuantity
  rw [h]
  dsimp only
  by_cases hq : b.totalBorrows ≠ q
  · rw [if_pos hq]
    simp only [updateDerivedHealthFactorData, find?_borrow_map_upd]
    rw [find?_setBorrowQtyFirst_self sym q d.userBorrowsData b h]
    rfl
  · rw [if_neg hq]
    rw [h]
    push_neg at hq
    simp [hq]

/-- C8: a collateral-funded repay with a positive liquidation bonus `b` seizes
`min(targetDebtUsd × (1 + b) / collateralPrice, available collateral units)`
collateral units, reduces the debt by
`(seized units × collateral price) / (1 + b) / debt price` capped at the
outstanding debt, and applies no swap fee or slippage — the formulas involve
only the bonus. -/
theorem C8_repay_with_bonus (d : AaveHealthFactorData) (mrp : ℚ)
    (debtSymbol collateralSymbol : String) (amt bonusPct : ℚ)
    (debtItem : BorrowedAssetDataItem) (collateralItem : ReserveAssetDataItem)
    (hd : d.userBorrowsData.find? (fun x => x.asset.symbol == debtSymbol) =
      some debtItem)
    (hdq : 0 < debtItem.totalBorrows)
    (hc : d.userReservesData.find? (fun x => x.asset.symbol == collateralSymbol) =
      some collateralItem)
    (hcb : 0 < collateralItem.underlyingBalance)
    (hamt : 0 < amt) (hbp : 0 < bonusPct)
    (hdp : debtItem.asset.priceInUSD ≠ 0)
    (hcp : collateralItem.asset.priceInUSD ≠ 0) :
    let b := bonusPct / 100
    let targetDebtUsd := min amt debtItem.totalBorrows * debtItem.asset.priceInUSD
    let seized := min (targetDebtUsd * (1 + b) / collateralItem.asset.priceInUSD)
      collateralItem.underlyingBalance
    let reduce := min (seized * collateralItem.asset.priceInUSD / (1 + b) /
      debtItem.asset.priceInUSD) debtItem.totalBorrows
    let result := simulateRepayDebt d mrp
      { debtSymbol := debtSymbol, mode := .collateral, manualAmount := none,
        collateralSymbol := some collateralSymbol, percentage := none,
        collateralRepayAmount := some amt, slippageBps := none,
        liquidationBonusPct := some bonusPct }
    ((result.userReservesData.find? (fun x => x.asset.symbol == collateralSymbol)).map
        (fun x => x.underlyingBalance) =
      some (collateralItem.underlyingBalance - seized)) ∧
    ((result.userBorrowsData.find? (fun x => x.asset.symbol == debtSymbol)).map
        (fun x => x.totalBorrows) = some (debtItem.totalBorrows - reduce)) := by
  intro b targetDebtUsd seized reduce result
  have hresult : result = setBorrowedAssetQuantity
      (setReserveAssetQuantity d mrp collateralSymbol
        (max 0 (collateralItem.underlyingBalance - seized))) mrp debtSymbol
      (max 0 (debtItem.totalBorrows - reduce)) := by
    show simulateRepayDebt d mrp _ = _
    unfold simulateRepayDebt
    rw [hd]
    dsimp only
    rw [if_neg (not_le_of_lt hdq)]
    rw [if_neg (by
      intro hcontra
      have := hcontra.2
      simp [decide_eq_true hamt] at this)]
    rw [if_pos hamt]
    rw [hc]
    dsimp only
    rw [if_neg (by
      push_neg
      exact ⟨hcb, lt_min hamt hdq⟩)]
    rw [if_neg hdp, if_neg hcp, if_pos hbp]
    rw [if_pos (by positivity : (0 : ℚ) < bonusPct / 100)]
  have hseized_le : seized ≤ collateralItem.underlyingBalance := min_le_right _ _
  have hreduce_le : reduce ≤ debtItem.totalBorrows := min_le_right _ _
  have hmax1 : max 0 (collateralItem.underlyingBalance - seized) =
      collateralItem.underlyingBalance - seized := max_eq_right (by linarith)
  have hmax2 : max 0 (debtItem.totalBorrows - reduce) =
      debtItem.totalBorrows - reduce := max_eq_right (by linarith)
  constructor
  · rw [hresult, reserve_qty_after_setBorrowedAssetQuantity,
      reserve_qty_after_setReserveAssetQuantity d mrp collateralSymbol _
        collateralItem hc, hmax1]
  · rw [hresult]
    have h1 := borrow_qty_after_setReserveAssetQuantity d mrp collateralSymbol
      (max 0 (collateralItem.underlyingBalance - seized)) debtSymbol
    rw [hd] at h1
    simp only [Option.map_some'] at h1
    obtain ⟨item', hitem', hqty⟩ := Option.map_eq_some'.mp h1
    rw [borrow_qty_after_setBorrowedAssetQuantity _ mrp debtSymbol _ item' hitem',
      hmax2]

theorem C8_repay_with_bonus_witness :
    (wethUsdcPosition.userBorrowsData.find? (fun x => x.asset.symbol == "USDC") =
        some (mkBorrowItem usdcAsset 10000)) ∧
    (0 : ℚ) < (mkBorrowItem usdcAsset 10000).totalBorrows ∧
    (wethUsdcPosition.userReservesData.find? (fun x => x.asset.symbol == "WETH") =
        some (mkReserveItem wethAsset 10)) ∧
    (0 : ℚ) < (mkReserveItem wethAsset 10).underlyingBalance ∧
    (0 : ℚ) < 1000 ∧ (0 : ℚ) < 5 ∧
    (mkBorrowItem usdcAsset 10000).asset.priceInUSD ≠ 0 ∧
    (mkReserveItem wethAsset 10).asset.priceInUSD ≠ 0 ∧
    (let b := (5 : ℚ) / 100
     let targetDebtUsd := min 1000 (mkBorrowItem usdcAsset 10000).totalBorrows *
       (mkBorrowItem usdcAsset 10000).asset.priceInUSD
     let seized := min (targetDebtUsd * (1 + b) /
       (mkReserveItem wethAsset 10).asset.priceInUSD)
       (mkReserveItem wethAsset 10).underlyingBalance
     let reduce := min (seized * (mkReserveItem wethAsset 10).asset.priceInUSD /
       (1 + b) / (mkBorrowItem usdcAsset 10000).asset.priceInUSD)
       (mkBorrowItem usdcAsset 10000).totalBorrows
     let result := simulateRepayDebt wethUsdcPosition 1
       { debtSymbol := "USDC", mode := .collateral, manualAmount := none,
         collateralSymbol := some "WETH", percentage := none,
         collateralRepayAmount := some 1000, slippageBps := none,
         liquidationBonusPct := some 5 }
     ((result.userReservesData.find? (fun x => x.asset.symbol == "WETH")).map
         (fun x => x.underlyingBalance) =
       some ((mkReserveItem wethAsset 10).underlyingBalance - seized)) ∧
     ((result.userBorrowsData.find? (fun x => x.asset.symbol == "USDC")).map
         (fun x => x.totalBorrows) =
       some ((mkBorrowItem usdcAsset 10000).totalBorrows - reduce))) :=
  ⟨by decide, by norm_num [mkBorrowItem], by decide,
   by norm_num [mkReserveItem], by norm_num, by norm_num,
   by decide, by decide,
   C8_repay_with_bonus wethUsdcPosition 1 "USDC" "WETH" 1000 5
     (mkBorrowItem usdcAsset 10000) (mkReserveItem wethAsset 10)
     (by decide) (by norm_num [mkBorrowItem]) (by decide)
     (by norm_num [mkReserveItem]) (by norm_num) (by norm_num)
     (by decide) (by decide)⟩

/-- C9: the four projection functions (swap-debt, swap-collateral, repay,
borrow-more) perform their arithmetic on a deep copy and return a
`{ healthFactor, liquidationScenario }` result while leaving the working
store — every line item, asset price and derived field of the working
position — unchanged. -/
theorem C9_projections_pure (store : MarketStore)
    (sourceSymbol targetSymbol symbol : String)
    (percentage additionalUnits : ℚ) (slippageBps swapAmount : Option ℚ)
    (params : RepayParams) :
    (getProjectedHealthFactorAfterSwapDebt store sourceSymbol targetSymbol
      percentage slippageBps).1 = store ∧
    (getProjectedHealthFactorAfterSwapCollateral store sourceSymbol targetSymbol
      percentage slippageBps swapAmount).1 = store ∧
    (getProjectedHealthFactorAfterRepay store params).1 = store ∧
    (getProjectedHealthFactorAfterBorrow store symbol additionalUnits).1 = store := by
  refine ⟨?_, ?_, ?_, ?_⟩
  · unfold getProjectedHealthFactorAfterSwapDebt
    dsimp only
    repeat' split
    all_goals rfl
  · unfold getProjectedHealthFactorAfterSwapCollateral
    dsimp only
    repeat' split
    all_goals rfl
  · unfold getProjectedHealthFactorAfterRepay
    dsimp only
    repeat' split
    all_goals rfl
  · unfold getProjectedHealthFactorAfterBorrow
    dsimp only
    repeat' split
    all_goals rfl

/-! ### Solver soundness: the two-decimal rounding band -/

theorem roundCents_one_of_band (q : ℚ) (h1 : 1 ≤ q) (h2 : q ≤ HF_LIMIT) :
    roundCents q = 1 := by
  unfold HF_LIMIT at h2
  unfold roundCents jsRound NUMBER_EPSILON
  have heps : ((1 : ℚ) / 2 ^ 52) = 1 / 4503599627370496 := by norm_num
  have hfloor : (⌊(q + 1 / 2 ^ 52) * 100 + 1 / 2⌋ : ℤ) = 100 := by
    rw [Int.floor_eq_iff]
    rw [heps]
    constructor
    · push_cast
      linarith
    · push_cast
      linarith
  rw [hfloor]
  norm_num

/-! ### Solver soundness: price-write algebra -/

theorem setReservePriceFirst_symbols (s : String) (p : ℚ) :
    ∀ rs : List ReserveAssetDataItem,
      (setReservePriceFirst rs s p).map (fun r => r.asset.symbol) =
        rs.map (fun r => r.asset.symbol)
  | [] => rfl
  | a :: as => by
    unfold setReservePriceFirst
    by_cases h : a.asset.symbol == s
    · rw [if_pos h]
      rfl
    · rw [if_neg h]
      simp only [List.map_cons]
      rw [setReservePriceFirst_symbols s p as]

theorem setBorrowPriceFirst_symbols (s : String) (p : ℚ) :
    ∀ bs : List BorrowedAssetDataItem,
      (setBorrowPriceFirst bs s p).map (fun b => b.asset.symbol) =
        bs.map (fun b => b.asset.symbol)
  | [] => rfl
  | a :: as => by
    unfold setBorrowPriceFirst
    by_cases h : a.asset.symbol == s
    · rw [if_pos h]
      rfl
    · rw [if_neg h]
      simp only [List.map_cons]
      rw [setBorrowPriceFirst_symbols s p as]

theorem setBorrowPriceFirst_id (s : String) (p : ℚ) :
    ∀ bs : List BorrowedAssetDataItem,
      (∀ b ∈ bs, b.asset.symbol ≠ s) → setBorrowPriceFirst bs s p = bs
  | [], _ => rfl
  | a :: as, h => by
    unfold setBorrowPriceFirst
    rw [if_neg (by simp [h a (List.mem_cons_self a as)])]
    rw [setBorrowPriceFirst_id s p as (fun b hb => h b (List.mem_cons_of_mem a hb))]

theorem setReservePriceFirst_cons (a : ReserveAssetDataItem)
    (as : List ReserveAssetDataItem) (s : String) (p : ℚ) :
    setReservePriceFirst (a :: as) s p =
      if a.asset.symbol == s then
        { a with asset := { a.asset with priceInUSD := p } } :: as
      else a :: setReservePriceFirst as s p := rfl

theorem setBorrowPriceFirst_cons (a : BorrowedAssetDataItem)
    (as : List BorrowedAssetDataItem) (s : String) (p : ℚ) :
    setBorrowPriceFirst (a :: as) s p =
      if a.asset.symbol == s then
        { a with asset := { a.asset with priceInUSD := p } } :: as
      else a :: setBorrowPriceFirst as s p := rfl

theorem setReservePriceFirst_overwrite (s : String) (p q : ℚ) :
    ∀ rs : List ReserveAssetDataItem,
      setReservePriceFirst (setReservePriceFirst rs s p) s q =
        setReservePriceFirst rs s q
  | [] => rfl
  | a :: as => by
    rw [setReservePriceFirst_cons]
    by_cases h : a.asset.symbol == s
    · rw [if_pos h, setReservePriceFirst_cons,
        if_pos (show ({ a with asset := { a.asset with priceInUSD := p } } :
          ReserveAssetDataItem).asset.symbol == s from h),
        setReservePriceFirst_cons, if_pos h]
    · rw [if_neg h, setReservePriceFirst_cons, if_neg h,
        setReservePriceFirst_cons, if_neg h,
        setReservePriceFirst_overwrite s p q as]

theorem setReservePriceFirst_self (s : String) :
    ∀ (rs : List ReserveAssetDataItem) (r : ReserveAssetDataItem),
      rs.find? (fun x => x.asset.symbol == s) = some r →
      setReservePriceFirst rs s r.asset.priceInUSD = rs
  | [], r, h => by simp at h
  | a :: as, r, h => by
    unfold setReservePriceFirst
    by_cases ha : a.asset.symbol == s
    · simp only [List.find?, ha] at h
      cases h
      rw [if_pos ha]
    · rw [Bool.not_eq_true] at ha
      simp only [List.find?, ha] at h
      rw [if_neg (by simp [ha])]
      rw [setReservePriceFirst_self s as r h]

theorem eraseR_setReservePriceFirst (s : String) (p : ℚ) :
    ∀ rs : List ReserveAssetDataItem,
      (setReservePriceFirst rs s p).map eraseDerivedR =
        setReservePriceFirst (rs.map eraseDerivedR) s p
  | [] => rfl
  | a :: as => by
    rw [setReservePriceFirst_cons]
    by_cases h : a.asset.symbol == s
    · rw [if_pos h]
      simp only [List.map_cons]
      rw [setReservePriceFirst_cons,
        if_pos (show (eraseDerivedR a).asset.symbol == s from h)]
      rfl
    · rw [if_neg h]
      simp only [List.map_cons]
      rw [setReservePriceFirst_cons,
        if_neg (show ¬((eraseDerivedR a).asset.symbol == s) = true from h),
        eraseR_setReservePriceFirst s p as]

theorem eraseB_setBorrowPriceFirst (s : String) (p : ℚ) :
    ∀ bs : List BorrowedAssetDataItem,
      (setBorrowPriceFirst bs s p).map eraseDerivedB =
        setBorrowPriceFirst (bs.map eraseDerivedB) s p
  | [] => rfl
  | a :: as => by
    rw [setBorrowPriceFirst_cons]
    by_cases h : a.asset.symbol == s
    · rw [if_pos h]
      simp only [List.map_cons]
      rw [setBorrowPriceFirst_cons,
        if_pos (show (eraseDerivedB a).asset.symbol == s from h)]
      rfl
    · rw [if_neg h]
      simp only [List.map_cons]
      rw [setBorrowPriceFirst_cons,
        if_neg (show ¬((eraseDerivedB a).asset.symbol == s) = true from h),
        eraseB_setBorrowPriceFirst s p as]

theorem eraseDerived_setPriceInData (d : AaveHealthFactorData) (s : String)
    (p : ℚ) :
    eraseDerived (setPriceInData d s p) = setPriceInData (eraseDerived d) s p := by
  unfold eraseDerived setPriceInData
  simp only [eraseR_setReservePriceFirst, eraseB_setBorrowPriceFirst]

theorem eraseDerived_setReservePriceOnly (d : AaveHealthFactorData) (s : String)
    (p : ℚ) :
    eraseDerived (setReservePriceOnly d s p) =
      setReservePriceOnly (eraseDerived d) s p := by
  unfold eraseDerived setReservePriceOnly
  simp only [eraseR_setReservePriceFirst]

theorem find?_reserve_map_eraseR (rs : List ReserveAssetDataItem) (s : String) :
    (rs.map eraseDerivedR).find? (fun r => r.asset.symbol == s) =
      (rs.find? (fun r => r.asset.symbol == s)).map eraseDerivedR := by
  rw [List.find?_map]
  rfl

theorem scenPairsR_map_eraseR (rs : List ReserveAssetDataItem)
    (syms : List String) :
    scenPairsR (rs.map eraseDerivedR) syms = scenPairsR rs syms := by
  unfold scenPairsR
  congr 1
  funext s
  rw [find?_reserve_map_eraseR]
  cases rs.find? (fun r => r.asset.symbol == s) <;> rfl

theorem setRP_self (r : ReserveAssetDataItem) : setRP r r.asset.priceInUSD = r := rfl

theorem histApply_cons (e : String × ℚ) (ps : List (String × ℚ)) (s : String)
    (p0 : ℚ) :
    histApply (e :: ps) s p0 = histApply ps s (if s = e.1 then e.2 else p0) := rfl

theorem histApply_not_mem (s : String) :
    ∀ (ps : List (String × ℚ)) (p0 : ℚ),
      (∀ e ∈ ps, e.1 ≠ s) → histApply ps s p0 = p0
  | [], _, _ => rfl
  | e :: ps, p0, h => by
    rw [histApply_cons, if_neg (h e (List.mem_cons_self e ps)).symm]
    exact histApply_not_mem s ps p0 (fun x hx => h x (List.mem_cons_of_mem e hx))

theorem applyPairsR_cons (rs : List ReserveAssetDataItem) (e : String × ℚ)
    (ps : List (String × ℚ)) :
    applyPairsR rs (e :: ps) = applyPairsR (setReservePriceFirst rs e.1 e.2) ps := rfl

/-- With unique symbols, the first-match price write acts pointwise. -/
theorem setFirst_eq_map (s : String) (p : ℚ) :
    ∀ rs : List ReserveAssetDataItem,
      (rs.map (fun r => r.asset.symbol)).Nodup →
      setReservePriceFirst rs s p =
        rs.map (fun r => if r.asset.symbol = s then setRP r p else r)
  | [], _ => rfl
  | a :: as, hnd => by
    simp only [List.map_cons, List.nodup_cons] at hnd
    obtain ⟨hna, hnd'⟩ := hnd
    rw [setReservePriceFirst_cons, List.map_cons]
    by_cases h : a.asset.symbol = s
    · rw [if_pos (by simp [h]), if_pos h]
      have hrest : ∀ r ∈ as,
          (if r.asset.symbol = s then setRP r p else r) = r := by
        intro r hr
        rw [if_neg]
        intro hc
        exact hna (List.mem_map.mpr ⟨r, hr, hc.trans h.symm⟩)
      rw [List.map_congr_left hrest]
      simp [setRP]
    · rw [if_neg (by simp [h]), if_neg h, setFirst_eq_map s p as hnd']

/-- With unique symbols, a write sequence acts pointwise through
`histApply`. -/
theorem applyPairsR_eq_map :
    ∀ (ps : List (String × ℚ)) (rs : List ReserveAssetDataItem),
      (rs.map (fun r => r.asset.symbol)).Nodup →
      applyPairsR rs ps =
        rs.map (fun r => setRP r (histApply ps r.asset.symbol r.asset.priceInUSD))
  | [], rs, _ => by
    show rs = _
    have : ∀ r ∈ rs,
        setRP r (histApply [] r.asset.symbol r.asset.priceInUSD) = r :=
      fun r _ => setRP_self r
    rw [List.map_congr_left this]
    simp
  | e :: ps, rs, hnd => by
    rw [applyPairsR_cons, setFirst_eq_map e.1 e.2 rs hnd]
    have hcomp : ((fun r : ReserveAssetDataItem => r.asset.symbol) ∘
        (fun r => if r.asset.symbol = e.1 then setRP r e.2 else r)) =
        fun r : ReserveAssetDataItem => r.asset.symbol := by
      funext r
      by_cases h : r.asset.symbol = e.1 <;> simp [h, setRP]
    have hnd2 : (((rs.map (fun r => if r.asset.symbol = e.1 then setRP r e.2 else r)).map
        (fun r => r.asset.symbol))).Nodup := by
      rw [List.map_map, hcomp]
      exact hnd
    rw [applyPairsR_eq_map ps _ hnd2, List.map_map]
    apply List.map_congr_left
    intro r _
    by_cases h : r.asset.symbol = e.1
    · simp only [Function.comp, if_pos h]
      rw [histApply_cons, if_pos h]
      rfl
    · simp only [Function.comp, if_neg h]
      rw [histApply_cons, if_neg h]

theorem find?_of_mem_nodup :
    ∀ rs : List ReserveAssetDataItem,
      (rs.map (fun r => r.asset.symbol)).Nodup →
      ∀ r ∈ rs, rs.find? (fun x => x.asset.symbol == r.asset.symbol) = some r
  | [], _, r, hr => absurd hr (List.not_mem_nil r)
  | a :: as, hnd, r, hr => by
    simp only [List.map_cons, List.nodup_cons] at hnd
    obtain ⟨hna, hnd'⟩ := hnd
    rcases List.mem_cons.mp hr with rfl | hr'
    · simp [List.find?]
    · have hne : a.asset.symbol ≠ r.asset.symbol := by
        intro hc
        apply hna
        rw [hc]
        exact List.mem_map_of_mem _ hr'
      simp only [List.find?, show (a.asset.symbol == r.asset.symbol) = false by
        simp [hne]]
      exact find?_of_mem_nodup as hnd' r hr'

theorem filterMap_eq_map_of_all_some {α β : Type _} (g : α → Option β)
    (h' : α → β) :
    ∀ l : List α, (∀ a ∈ l, g a = some (h' a)) → l.filterMap g = l.map h'
  | [], _ => rfl
  | a :: l, h => by
    rw [List.filterMap_cons_some (h a (List.mem_cons_self a l)), List.map_cons,
      filterMap_eq_map_of_all_some g h' l
        (fun x hx => h x (List.mem_cons_of_mem a hx))]

theorem histApply_map_unique (val : String → ℚ) :
    ∀ syms : List String, syms.Nodup → ∀ t ∈ syms, ∀ p0 : ℚ,
      histApply (syms.map (fun s => (s, val s))) t p0 = val t
  | [], _, t, ht, _ => absurd ht (List.not_mem_nil t)
  | s :: ss, hnd, t, ht, p0 => by
    simp only [List.nodup_cons] at hnd
    obtain ⟨hns, hnd'⟩ := hnd
    rw [List.map_cons, histApply_cons]
    rcases List.mem_cons.mp ht with rfl | ht'
    · rw [if_pos rfl]
      apply histApply_not_mem
      intro e he
      obtain ⟨s', hs', rfl⟩ := List.mem_map.mp he
      intro hc
      have hc' : s' = t := hc
      rw [hc'] at hs'
      exact hns hs'
    · rw [if_neg (fun hc => hns (by
        have hc' : t = s := hc
        rw [← hc']
        exact ht'))]
      exact histApply_map_unique val ss hnd' t ht' p0

theorem scenPairsR_keys (rs' : List ReserveAssetDataItem) (syms : List String) :
    ∀ e ∈ scenPairsR rs' syms, e.1 ∈ syms := by
  intro e he
  unfold scenPairsR at he
  obtain ⟨s, hs, hg⟩ := List.mem_filterMap.mp he
  cases hf : rs'.find? (fun r => r.asset.symbol == s) with
  | none => rw [hf] at hg; simp at hg
  | some r =>
    rw [hf] at hg
    simp only [Option.map_some'] at hg
    cases hg
    have hsym := List.find?_some hf
    simp only [beq_iff_eq] at hsym
    simpa [hsym] using hs

theorem find?_map_setRP_hist (rs : List ReserveAssetDataItem)
    (ps : List (String × ℚ)) (s : String) :
    (rs.map (fun r => setRP r (histApply ps r.asset.symbol r.asset.priceInUSD))).find?
        (fun x => x.asset.symbol == s) =
      (rs.find? (fun x => x.asset.symbol == s)).map
        (fun r => setRP r (histApply ps r.asset.symbol r.asset.priceInUSD)) := by
  rw [List.find?_map]
  rfl

/-- Replaying the final prices of a write sequence reproduces its result. -/
theorem scen_roundtrip_R (rs : List ReserveAssetDataItem) (syms : List String)
    (ps : List (String × ℚ))
    (hnd : (rs.map (fun r => r.asset.symbol)).Nodup)
    (hndsyms : syms.Nodup)
    (hsyms : ∀ s ∈ syms, s ∈ rs.map (fun r => r.asset.symbol))
    (hps : ∀ e ∈ ps, e.1 ∈ syms) :
    applyPairsR rs (scenPairsR (applyPairsR rs ps) syms) = applyPairsR rs ps := by
  have hmap : applyPairsR rs ps =
      rs.map (fun r => setRP r (histApply ps r.asset.symbol r.asset.priceInUSD)) :=
    applyPairsR_eq_map ps rs hnd
  have hQ : scenPairsR (applyPairsR rs ps) syms =
      syms.map (fun s => (s,
        match rs.find? (fun x => x.asset.symbol == s) with
        | some r => histApply ps s r.asset.priceInUSD
        | none => 0)) := by
    rw [hmap]
    unfold scenPairsR
    apply filterMap_eq_map_of_all_some
    intro s hs
    obtain ⟨r, hrm, hrs⟩ := List.mem_map.mp (hsyms s hs)
    have hfind : rs.find? (fun x => x.asset.symbol == s) = some r := by
      rw [← hrs]
      exact find?_of_mem_nodup rs hnd r hrm
    rw [find?_map_setRP_hist, hfind]
    simp only [Option.map_some', Option.some.injEq]
    rw [show (setRP r (histApply ps r.asset.symbol r.asset.priceInUSD)).asset.symbol =
      r.asset.symbol from rfl]
    rw [show (setRP r (histApply ps r.asset.symbol r.asset.priceInUSD)).asset.priceInUSD =
      histApply ps r.asset.symbol r.asset.priceInUSD from rfl]
    rw [hrs]
  rw [hQ, applyPairsR_eq_map _ rs hnd, hmap]
  apply List.map_congr_left
  intro r hr
  by_cases hmem : r.asset.symbol ∈ syms
  · rw [histApply_map_unique _ syms hndsyms r.asset.symbol hmem]
    rw [find?_of_mem_nodup rs hnd r hr]
  · rw [histApply_not_mem _ _ _ (by
      intro e he
      intro hc
      apply hmem
      rw [← hc]
      obtain ⟨s', hs', rfl⟩ := List.mem_map.mp he
      exact hs')]
    rw [histApply_not_mem _ _ _ (by
      intro e he
      intro hc
      apply hmem
      rw [← hc]
      exact hps e he)]

theorem applyPairs_cons (d : AaveHealthFactorData) (e : String × ℚ)
    (ps : List (String × ℚ)) :
    applyPairs d (e :: ps) = applyPairs (setPriceInData d e.1 e.2) ps := rfl

theorem erase_applyPairs :
    ∀ (ps : List (String × ℚ)) (d : AaveHealthFactorData),
      eraseDerived (applyPairs d ps) = applyPairs (eraseDerived d) ps
  | [], d => rfl
  | e :: ps, d => by
    rw [applyPairs_cons, applyPairs_cons, erase_applyPairs ps,
      eraseDerived_setPriceInData]

theorem applyPairs_eq_reserves :
    ∀ (ps : List (String × ℚ)) (d : AaveHealthFactorData),
      (∀ e ∈ ps, ∀ b ∈ d.userBorrowsData, b.asset.symbol ≠ e.1) →
      applyPairs d ps = { d with userReservesData := applyPairsR d.userReservesData ps }
  | [], d, _ => rfl
  | e :: ps, d, h => by
    rw [applyPairs_cons]
    have hb : setBorrowPriceFirst d.userBorrowsData e.1 e.2 = d.userBorrowsData :=
      setBorrowPriceFirst_id e.1 e.2 d.userBorrowsData
        (fun b hb => h e (List.mem_cons_self e ps) b hb)
    have hset : setPriceInData d e.1 e.2 =
        { d with userReservesData := setReservePriceFirst d.userReservesData e.1 e.2 } := by
      unfold setPriceInData
      rw [hb]
    rw [hset, applyPairs_eq_reserves ps
      { d with userReservesData := setReservePriceFirst d.userReservesData e.1 e.2 }
      (fun x hx b hbm => h x (List.mem_cons_of_mem e hx) b hbm)]
    rfl

theorem applyScenario_eq_applyPairs (d : AaveHealthFactorData)
    (sc : List AssetDetails) :
    applyScenario d sc = applyPairs d (pairsOfScenario sc) := by
  unfold applyScenario applyPairs pairsOfScenario
  rw [List.foldl_map]

theorem pairsOfScenario_scenarioAssetsOf (Y : AaveHealthFactorData)
    (syms : List String) :
    pairsOfScenario (scenarioAssetsOf Y syms) =
      scenPairsR Y.userReservesData syms := by
  unfold pairsOfScenario scenarioAssetsOf scenPairsR
  rw [List.map_filterMap]
  congr 1
  funext s
  cases Y.userReservesData.find? (fun r => r.asset.symbol == s) <;> rfl

theorem map_symbol_eraseR (rs : List ReserveAssetDataItem) :
    (rs.map eraseDerivedR).map (fun r => r.asset.symbol) =
      rs.map (fun r => r.asset.symbol) := by
  rw [List.map_map]
  rfl

theorem map_symbol_eraseB (bs : List BorrowedAssetDataItem) :
    (bs.map eraseDerivedB).map (fun b => b.asset.symbol) =
      bs.map (fun b => b.asset.symbol) := by
  rw [List.map_map]
  rfl

/-- The key apply-back lemma: if a position `Y` was produced from `d0` by a
sequence of scenario-symbol price writes (up to derived fields), then writing
`Y`'s scenario prices into `d0` reproduces `Y`'s essential data. -/
theorem erase_applyScenario_roundtrip (d0 Y : AaveHealthFactorData)
    (syms : List String) (hist : List (String × ℚ))
    (hnd : (d0.userReservesData.map (fun r => r.asset.symbol)).Nodup)
    (hndsyms : syms.Nodup)
    (hsyms : ∀ s ∈ syms, s ∈ d0.userReservesData.map (fun r => r.asset.symbol))
    (hhist : ∀ e ∈ hist, e.1 ∈ syms)
    (hdisj : ∀ s ∈ syms, ∀ b ∈ d0.userBorrowsData, b.asset.symbol ≠ s)
    (htrace : eraseDerived Y = applyPairs (eraseDerived d0) hist) :
    eraseDerived (applyScenario d0 (scenarioAssetsOf Y syms)) = eraseDerived Y := by
  have hedisjhist : ∀ e ∈ hist, ∀ b ∈ (eraseDerived d0).userBorrowsData,
      b.asset.symbol ≠ e.1 := by
    intro e he b hb
    obtain ⟨b0, hb0, rfl⟩ := List.mem_map.mp hb
    exact hdisj e.1 (hhist e he) b0 hb0
  have hP : pairsOfScenario (scenarioAssetsOf Y syms) =
      scenPairsR (applyPairsR (eraseDerived d0).userReservesData hist) syms := by
    rw [pairsOfScenario_scenarioAssetsOf]
    rw [← scenPairsR_map_eraseR Y.userReservesData syms]
    have : (Y.userReservesData.map eraseDerivedR) =
        applyPairsR (eraseDerived d0).userReservesData hist := by
      have h1 := congrArg AaveHealthFactorData.userReservesData htrace
      rw [applyPairs_eq_reserves hist _ hedisjhist] at h1
      exact h1
    rw [this]
  have hPkeys : ∀ e ∈ pairsOfScenario (scenarioAssetsOf Y syms), e.1 ∈ syms := by
    rw [hP]
    exact scenPairsR_keys _ syms
  have hednd : ((eraseDerived d0).userReservesData.map
      (fun r => r.asset.symbol)).Nodup := by
    show ((d0.userReservesData.map eraseDerivedR).map (fun r => r.asset.symbol)).Nodup
    rw [map_symbol_eraseR]
    exact hnd
  have hedsyms : ∀ s ∈ syms,
      s ∈ (eraseDerived d0).userReservesData.map (fun r => r.asset.symbol) := by
    intro s hs
    show s ∈ (d0.userReservesData.map eraseDerivedR).map (fun r => r.asset.symbol)
    rw [map_symbol_eraseR]
    exact hsyms s hs
  have hedisjP : ∀ e ∈ pairsOfScenario (scenarioAssetsOf Y syms),
      ∀ b ∈ (eraseDerived d0).userBorrowsData, b.asset.symbol ≠ e.1 := by
    intro e he b hb
    obtain ⟨b0, hb0, rfl⟩ := List.mem_map.mp hb
    exact hdisj e.1 (hPkeys e he) b0 hb0
  rw [applyScenario_eq_applyPairs, erase_applyPairs,
    applyPairs_eq_reserves _ _ hedisjP, hP,
    scen_roundtrip_R _ syms hist hednd hndsyms hedsyms hhist, htrace,
    applyPairs_eq_reserves hist _ hedisjhist]

/-! ### Solver loop invariants -/

theorem map_symbol_updBorrow (mrp : ℚ) (bs : List BorrowedAssetDataItem) :
    (bs.map (updBorrowItem mrp)).map (fun b => b.asset.symbol) =
      bs.map (fun b => b.asset.symbol) := by
  rw [List.map_map]
  rfl

theorem applyPairs_snoc (d : AaveHealthFactorData) (ps : List (String × ℚ))
    (e : String × ℚ) :
    applyPairs d (ps ++ [e]) = setPriceInData (applyPairs d ps) e.1 e.2 := by
  unfold applyPairs
  rw [List.foldl_append]
  rfl

theorem borrowSyms_updateDerived (d : AaveHealthFactorData) (mrp : ℚ) :
    (updateDerivedHealthFactorData d mrp).userBorrowsData.map
        (fun b => b.asset.symbol) =
      d.userBorrowsData.map (fun b => b.asset.symbol) :=
  map_symbol_updBorrow mrp d.userBorrowsData

theorem borrowSyms_setPriceInData (d : AaveHealthFactorData) (s : String)
    (p : ℚ) :
    (setPriceInData d s p).userBorrowsData.map (fun b => b.asset.symbol) =
      d.userBorrowsData.map (fun b => b.asset.symbol) :=
  setBorrowPriceFirst_symbols s p d.userBorrowsData

/-- A state that committed a price write at a scenario symbol followed by a
recompute keeps the solver invariant. -/
theorem commit_inv (d0 : AaveHealthFactorData) (mrp : ℚ) (syms : List String)
    (st : SolverState) (sym : String) (p : ℚ) (hsym : sym ∈ syms)
    (hinv : SolverInvariant d0 mrp syms st) (st' : SolverState)
    (hd : st'.d = updateDerivedHealthFactorData (setPriceInData st.d sym p) mrp)
    (hh : st'.hf = st'.d.healthFactor) :
    SolverInvariant d0 mrp syms st' := by
  obtain ⟨hhf, ⟨hist, hkeys, htrace⟩, hb⟩ := hinv
  refine ⟨?_, ⟨hist ++ [(sym, p)], ?_, ?_⟩, ?_⟩
  · rw [hh, hd]
    exact (congrArg AaveHealthFactorData.healthFactor
      (updateDerived_idem (setPriceInData st.d sym p) mrp)).symm
  · intro e he
    rcases List.mem_append.mp he with h | h
    · exact hkeys e h
    · rw [List.mem_singleton] at h
      rw [h]
      exact hsym
  · rw [hd, eraseDerived_updateDerived, eraseDerived_setPriceInData, htrace,
      applyPairs_snoc]
  · rw [hd, borrowSyms_updateDerived, borrowSyms_setPriceInData]
    exact hb

theorem expandStep_inv (d0 : AaveHealthFactorData) (mrp : ℚ)
    (syms : List String) (st : SolverState) (sym : String) (hsym : sym ∈ syms)
    (hinv : SolverInvariant d0 mrp syms st) :
    SolverInvariant d0 mrp syms (expandStep mrp st sym) ∧
      (expandStep mrp st sym).shortCircuit = st.shortCircuit := by
  unfold expandStep
  cases hf : findReservePrice st.d sym with
  | none => exact ⟨hinv, rfl⟩
  | some price =>
    dsimp only
    exact ⟨commit_inv d0 mrp syms st sym _ hsym hinv _ rfl rfl, rfl⟩

theorem contractStep_inv (d0 : AaveHealthFactorData) (mrp : ℚ)
    (syms : List String)
    (hdisj : ∀ s ∈ syms, ∀ b ∈ d0.userBorrowsData, b.asset.symbol ≠ s)
    (st : SolverState) (sym : String) (hsym : sym ∈ syms)
    (hinv : SolverInvariant d0 mrp syms st) :
    SolverInvariant d0 mrp syms (contractStep mrp syms st sym) := by
  unfold contractStep
  by_cases hg : hfLtLimit st.hf = true
  · rw [if_pos hg]
    exact hinv
  · rw [if_neg hg]
    cases hf : findReservePrice st.d sym with
    | none => exact hinv
    | some initialPrice =>
      dsimp only
      obtain ⟨hhf, ⟨hist, hkeys, htrace⟩, hb⟩ := hinv
      set pd := roundCents (contractionDecrement st.hf st.decPct initialPrice)
        with hpd
      set np := max (initialPrice - pd) (1 / 100) with hnp
      by_cases hrev : hfLtOne (updateDerivedHealthFactorData
        (setPriceInData st.d sym np) mrp).healthFactor = true
      · rw [if_pos hrev]
        have hbdisj : ∀ b ∈ (eraseDerived st.d).userBorrowsData,
            b.asset.symbol ≠ sym := by
          intro b hb'
          obtain ⟨b0, hb0, rfl⟩ := List.mem_map.mp hb'
          show (eraseDerivedB b0).asset.symbol ≠ sym
          have hmem : b0.asset.symbol ∈
              d0.userBorrowsData.map (fun b => b.asset.symbol) := by
            rw [← hb]
            exact List.mem_map_of_mem _ hb0
          obtain ⟨b1, hb1, hs1⟩ := List.mem_map.mp hmem
          show b0.asset.symbol ≠ sym
          rw [← hs1]
          exact hdisj sym hsym b1 hb1
        obtain ⟨r, hr, hrp⟩ := Option.map_eq_some'.mp hf
        have hfind : (eraseDerived st.d).userReservesData.find?
            (fun x => x.asset.symbol == sym) = some (eraseDerivedR r) := by
          show (st.d.userReservesData.map eraseDerivedR).find?
            (fun x => x.asset.symbol == sym) = some (eraseDerivedR r)
          rw [find?_reserve_map_eraseR, hr]
          rfl
        have herase : eraseDerived (setReservePriceOnly
            (updateDerivedHealthFactorData (setPriceInData st.d sym np) mrp)
            sym initialPrice) = eraseDerived st.d := by
          rw [eraseDerived_setReservePriceOnly, eraseDerived_updateDerived,
            eraseDerived_setPriceInData]
          have hsp : setPriceInData (eraseDerived st.d) sym np =
              { eraseDerived st.d with userReservesData := setReservePriceFirst (eraseDerived st.d).userReservesData sym np } := by
            unfold setPriceInData
            rw [setBorrowPriceFirst_id sym np _ hbdisj]
          rw [hsp]
          show { eraseDerived st.d with userReservesData := setReservePriceFirst (setReservePriceFirst (eraseDerived st.d).userReservesData sym np) sym initialPrice } = eraseDerived st.d
          rw [setReservePriceFirst_overwrite]
          rw [show initialPrice = (eraseDerivedR r).asset.priceInUSD from by
            rw [← hrp]
            rfl]
          rw [setReservePriceFirst_self sym _ (eraseDerivedR r) hfind]
        refine ⟨?_, ⟨hist, hkeys, ?_⟩, ?_⟩
        · show st.hf = _
          rw [updateDerived_congr mrp herase]
          exact hhf
        · show eraseDerived (setReservePriceOnly _ sym initialPrice) = _
          rw [herase]
          exact htrace
        · show (updateDerivedHealthFactorData (setPriceInData st.d sym np)
              mrp).userBorrowsData.map (fun b => b.asset.symbol) = _
          rw [borrowSyms_updateDerived, borrowSyms_setPriceInData]
          exact hb
      · rw [if_neg hrev]
        exact commit_inv d0 mrp syms st sym np hsym
          ⟨hhf, ⟨hist, hkeys, htrace⟩, hb⟩ _ rfl rfl

theorem contractStep_ge1 (mrp : ℚ) (syms : List String) (st : SolverState)
    (sym : String) (h : HFVal.ge1 st.hf) :
    HFVal.ge1 (contractStep mrp syms st sym).hf := by
  unfold contractStep
  by_cases hg : hfLtLimit st.hf = true
  · rw [if_pos hg]
    exact h
  · rw [if_neg hg]
    cases hf : findReservePrice st.d sym with
    | none => exact h
    | some initialPrice =>
      dsimp only
      set np := max (initialPrice -
        roundCents (contractionDecrement st.hf st.decPct initialPrice)) (1 / 100)
      by_cases hrev : hfLtOne (updateDerivedHealthFactorData
        (setPriceInData st.d sym np) mrp).healthFactor = true
      · rw [if_pos hrev]
        exact h
      · rw [if_neg hrev]
        show HFVal.ge1 (updateDerivedHealthFactorData
          (setPriceInData st.d sym np) mrp).healthFactor
        cases hd2 : (updateDerivedHealthFactorData
            (setPriceInData st.d sym np) mrp).healthFactor with
        | fin q =>
          unfold hfLtOne at hrev
          rw [hd2] at hrev
          simp at hrev
          exact hrev
        | inf => trivial

theorem sweep_expand_inv (d0 : AaveHealthFactorData) (mrp : ℚ)
    (syms : List String) :
    ∀ (l : List String) (st : SolverState), (∀ s ∈ l, s ∈ syms) →
      SolverInvariant d0 mrp syms st →
      SolverInvariant d0 mrp syms (l.foldl (expandStep mrp) st) ∧
        (l.foldl (expandStep mrp) st).shortCircuit = st.shortCircuit
  | [], st, _, hinv => ⟨hinv, rfl⟩
  | s :: l, st, hl, hinv => by
    rw [List.foldl_cons]
    obtain ⟨h1, h2⟩ :=
      expandStep_inv d0 mrp syms st s (hl s (List.mem_cons_self s l)) hinv
    obtain ⟨h3, h4⟩ := sweep_expand_inv d0 mrp syms l (expandStep mrp st s)
      (fun x hx => hl x (List.mem_cons_of_mem s hx)) h1
    exact ⟨h3, h4.trans h2⟩

theorem sweep_contract_inv (d0 : AaveHealthFactorData) (mrp : ℚ)
    (syms : List String)
    (hdisj : ∀ s ∈ syms, ∀ b ∈ d0.userBorrowsData, b.asset.symbol ≠ s) :
    ∀ (l : List String) (st : SolverState), (∀ s ∈ l, s ∈ syms) →
      SolverInvariant d0 mrp syms st →
      SolverInvariant d0 mrp syms (l.foldl (contractStep mrp syms) st)
  | [], _, _, hinv => hinv
  | s :: l, st, hl, hinv => by
    rw [List.foldl_cons]
    exact sweep_contract_inv d0 mrp syms hdisj l _
      (fun x hx => hl x (List.mem_cons_of_mem s hx))
      (contractStep_inv d0 mrp syms hdisj st s (hl s (List.mem_cons_self s l)) hinv)

theorem sweep_contract_ge1 (mrp : ℚ) (syms : List String) :
    ∀ (l : List String) (st : SolverState), HFVal.ge1 st.hf →
      HFVal.ge1 ((l.foldl (contractStep mrp syms) st)).hf
  | [], _, h => h
  | s :: l, st, h => by
    rw [List.foldl_cons]
    exact sweep_contract_ge1 mrp syms l _ (contractStep_ge1 mrp syms st s h)

theorem expansionLoop_inv (d0 : AaveHealthFactorData) (mrp : ℚ)
    (syms : List String) :
    ∀ (fuel : ℕ) (st : SolverState), SolverInvariant d0 mrp syms st →
      SolverInvariant d0 mrp syms (expansionLoop mrp syms fuel st).1 ∧
      (expansionLoop mrp syms fuel st).1.shortCircuit = st.shortCircuit ∧
      ((expansionLoop mrp syms fuel st).2 ≠ 0 →
        hfLtLimit (expansionLoop mrp syms fuel st).1.hf = false)
  | 0, st, hinv => ⟨hinv, rfl, fun h => absurd rfl h⟩
  | fuel + 1, st, hinv => by
    unfold expansionLoop
    by_cases hc : hfLtLimit st.hf = true
    · rw [if_pos hc]
      obtain ⟨h1, h2⟩ := sweep_expand_inv d0 mrp syms syms st (fun _ hs => hs) hinv
      obtain ⟨h3, h4, h5⟩ := expansionLoop_inv d0 mrp syms fuel _ h1
      exact ⟨h3, h4.trans h2, h5⟩
    · rw [if_neg hc]
      refine ⟨hinv, rfl, fun _ => ?_⟩
      rwa [Bool.not_eq_true] at hc

theorem contractionLoop_ge1 (mrp : ℚ) (syms : List String) :
    ∀ (fuel : ℕ) (st : SolverState), HFVal.ge1 st.hf →
      HFVal.ge1 (contractionLoop mrp syms fuel st).1.hf
  | 0, _, h => h
  | fuel + 1, st, h => by
    unfold contractionLoop
    by_cases hc : (hfGtLimit st.hf && !st.shortCircuit) = true
    · rw [if_pos hc]
      exact contractionLoop_ge1 mrp syms fuel _
        (sweep_contract_ge1 mrp syms syms _ h)
    · rw [if_neg hc]
      exact h

theorem contractionLoop_inv (d0 : AaveHealthFactorData) (mrp : ℚ)
    (syms : List String)
    (hdisj : ∀ s ∈ syms, ∀ b ∈ d0.userBorrowsData, b.asset.symbol ≠ s) :
    ∀ (fuel : ℕ) (st : SolverState), SolverInvariant d0 mrp syms st →
      SolverInvariant d0 mrp syms (contractionLoop mrp syms fuel st).1 ∧
      ((contractionLoop mrp syms fuel st).1 = st ∧
          (contractionLoop mrp syms fuel st).2 = fuel ∨
        HFVal.ge1 (contractionLoop mrp syms fuel st).1.hf) ∧
      ((contractionLoop mrp syms fuel st).2 ≠ 0 →
        hfGtLimit (contractionLoop mrp syms fuel st).1.hf = false ∨
          (contractionLoop mrp syms fuel st).1.shortCircuit = true)
  | 0, st, hinv => ⟨hinv, Or.inl ⟨rfl, rfl⟩, fun h => absurd rfl h⟩
  | fuel + 1, st, hinv => by
    unfold contractionLoop
    by_cases hc : (hfGtLimit st.hf && !st.shortCircuit) = true
    · rw [if_pos hc]
      have hge : HFVal.ge1 st.hf := by
        have h1 : hfGtLimit st.hf = true := by
          rw [Bool.and_eq_true] at hc
          exact hc.1
        cases hst : st.hf with
        | fin q =>
          rw [hst] at h1
          unfold hfGtLimit at h1
          simp only [decide_eq_true_eq] at h1
          show (1 : ℚ) ≤ q
          unfold HF_LIMIT at h1
          linarith
        | inf =>
          trivial
      have hinv0 : SolverInvariant d0 mrp syms { st with decPct := 0 } := hinv
      have h1 := sweep_contract_inv d0 mrp syms hdisj syms _ (fun _ hs => hs) hinv0
      have hge1 : HFVal.ge1
          (syms.foldl (contractStep mrp syms) { st with decPct := 0 }).hf :=
        sweep_contract_ge1 mrp syms syms _ hge
      obtain ⟨h2, _, h4⟩ := contractionLoop_inv d0 mrp syms hdisj fuel _ h1
      exact ⟨h2, Or.inr (contractionLoop_ge1 mrp syms fuel _ hge1), h4⟩
    · rw [if_neg hc]
      refine ⟨hinv, Or.inl ⟨rfl, rfl⟩, fun _ => ?_⟩
      rw [Bool.not_eq_true, Bool.and_eq_false_iff] at hc
      rcases hc with h | h
      · exact Or.inl h
      · right
        show st.shortCircuit = true
        rwa [Bool.not_eq_false'] at h

/-- The eligible-reserve selection either returns `[]` or returns exactly the
non-stablecoin collateral-enabled filter of the reserves, in which case every
borrow line item is a stablecoin. -/
theorem elig_cases (d : AaveHealthFactorData) :
    getEligibleLiquidationScenarioReserves d = [] ∨
      (getEligibleLiquidationScenarioReserves d =
          d.userReservesData.filter
            (fun r => !isStablecoinAsset r.asset &&
              r.usageAsCollateralEnabledOnUser) ∧
        ∀ b ∈ d.userBorrowsData, isStablecoinAsset b.asset = true) := by
  unfold getEligibleLiquidationScenarioReserves
  dsimp only
  split
  · exact Or.inl rfl
  · rename_i h1
    split
    · exact Or.inl rfl
    · split
      · refine Or.inr ⟨rfl, ?_⟩
        intro b hb
        rw [Bool.not_eq_true] at h1
        have hP := List.any_eq_false.mp h1 b hb
        simpa using hP
      · exact Or.inl rfl

/-- With no eligible reserves the solver returns the empty scenario. -/
theorem scenario_empty_of_elig_empty (d : AaveHealthFactorData) (mrp : ℚ)
    (hE : getEligibleLiquidationScenarioReserves d = []) :
    getCalculatedLiquidationScenario d mrp = [] := by
  unfold getCalculatedLiquidationScenario
  rw [hE]
  dsimp only
  split
  · rfl
  · rename_i hguard
    exact absurd (Or.inl rfl) hguard

/-- When the contraction loop exits with fuel left and no short circuit, the
final state satisfies the solver invariant with a health factor inside the
rounding band `[1, HF_LIMIT]`. -/
theorem solver_exit_sound (d : AaveHealthFactorData) (mrp : ℚ)
    (syms : List String) (st0 : SolverState) (p1 p2 : SolverState × ℕ)
    (hdisj : ∀ s ∈ syms, ∀ b ∈ d.userBorrowsData, b.asset.symbol ≠ s)
    (hinv0 : SolverInvariant d mrp syms st0)
    (hp1 : p1 = expansionLoop mrp syms SHORT_CIRCUIT_LOOP_LIMIT st0)
    (hp2 : p2 = contractionLoop mrp syms p1.2 p1.1)
    (hsc2 : p2.1.shortCircuit = false)
    (hfuel : p2.2 ≠ 0) :
    (∃ hist : List (String × ℚ), (∀ e ∈ hist, e.1 ∈ syms) ∧
        eraseDerived p2.1.d = applyPairs (eraseDerived d) hist) ∧
      hfRoundsToOne
        (updateDerivedHealthFactorData p2.1.d mrp).healthFactor = true := by
  obtain ⟨inv1, hsc1, hexit1⟩ :=
    expansionLoop_inv d mrp syms SHORT_CIRCUIT_LOOP_LIMIT st0 hinv0
  rw [← hp1] at inv1 hsc1 hexit1
  obtain ⟨inv2, hcase2, hexit2⟩ :=
    contractionLoop_inv d mrp syms hdisj p1.2 p1.1 inv1
  rw [← hp2] at inv2 hcase2 hexit2
  have hgtF : hfGtLimit p2.1.hf = false := by
    rcases hexit2 hfuel with h | h
    · exact h
    · rw [hsc2] at h
      exact absurd h (by decide)
  have hge1 : HFVal.ge1 p2.1.hf := by
    rcases hcase2 with ⟨heq, hfeq⟩ | hge
    · rw [heq]
      rw [hfeq] at hfuel
      have hlt := hexit1 hfuel
      cases hh : p1.1.hf with
      | fin r =>
        rw [hh] at hlt
        unfold hfLtLimit at hlt
        simp only [decide_eq_false_iff_not, not_lt] at hlt
        show (1 : ℚ) ≤ r
        unfold HF_LIMIT at hlt
        linarith
      | inf =>
        trivial
    · exact hge
  obtain ⟨q, hq⟩ : ∃ q, p2.1.hf = HFVal.fin q := by
    cases hh : p2.1.hf with
    | fin r => exact ⟨r, rfl⟩
    | inf =>
      rw [hh] at hgtF
      exact absurd hgtF (by decide)
  have hband1 : (1 : ℚ) ≤ q := by
    rw [hq] at hge1
    exact hge1
  have hband2 : q ≤ HF_LIMIT := by
    rw [hq] at hgtF
    unfold hfGtLimit at hgtF
    simp only [decide_eq_false_iff_not, not_lt] at hgtF
    exact hgtF
  have hr1 : hfRoundsToOne (HFVal.fin q) = true := by
    unfold hfRoundsToOne
    simp only [decide_eq_true_eq]
    exact roundCents_one_of_band q hband1 hband2
  obtain ⟨i1, i2, _⟩ := inv2
  refine ⟨i2, ?_⟩
  rw [← i1, hq]
  exact hr1

/-- Shape of the solver's result: either the empty scenario, or the scenario
assets of a position `Y` reached from the input by scenario-symbol price
writes, whose recomputed health factor rounds to 1.00. -/
theorem scenario_shape (d : AaveHealthFactorData) (mrp : ℚ)
    (hhf : d.healthFactor = (updateDerivedHealthFactorData d mrp).healthFactor)
    (hdisj : ∀ s ∈ (getEligibleLiquidationScenarioReserves d).map
        (fun r => r.asset.symbol), ∀ b ∈ d.userBorrowsData, b.asset.symbol ≠ s) :
    getCalculatedLiquidationScenario d mrp = [] ∨
    ∃ Y : AaveHealthFactorData,
      getCalculatedLiquidationScenario d mrp = scenarioAssetsOf Y
        ((getEligibleLiquidationScenarioReserves d).map
          (fun r => r.asset.symbol)) ∧
      (∃ hist : List (String × ℚ),
        (∀ e ∈ hist, e.1 ∈ (getEligibleLiquidationScenarioReserves d).map
          (fun r => r.asset.symbol)) ∧
        eraseDerived Y = applyPairs (eraseDerived d) hist) ∧
      hfRoundsToOne (updateDerivedHealthFactorData Y mrp).healthFactor = true := by
  cases hH : d.healthFactor with
  | fin q =>
    rw [hH] at hhf
    by_cases hq : q = 0
    · left
      unfold getCalculatedLiquidationScenario
      rw [hH]
      dsimp only
      rw [if_pos hq]
      split
      · rfl
      · rename_i hguard
        exact absurd (Or.inr (Or.inr rfl)) hguard
    · unfold getCalculatedLiquidationScenario
      rw [hH]
      dsimp only
      rw [if_neg hq]
      split
      · exact Or.inl rfl
      · split
        · rename_i hr
          refine Or.inr ⟨d, rfl, ⟨[], ?_, rfl⟩, ?_⟩
          · intro e he
            exact absurd he (List.not_mem_nil e)
          · rw [← hhf]
            exact hr
        · split
          · exact Or.inl rfl
          · rename_i hguard2
            rw [not_or] at hguard2
            obtain ⟨hA, hB⟩ := hguard2
            rw [Bool.not_eq_true] at hA
            refine Or.inr ⟨_, rfl, ?_⟩
            exact solver_exit_sound d mrp
              ((getEligibleLiquidationScenarioReserves d).map
                (fun r => r.asset.symbol))
              { d := d, hf := HFVal.fin q, decPct := 0, shortCircuit := false }
              _ _ hdisj
              ⟨hhf, ⟨[], fun e he => absurd he (List.not_mem_nil e), rfl⟩, rfl⟩
              rfl rfl hA hB
  | inf =>
    left
    unfold getCalculatedLiquidationScenario
    rw [hH]
    dsimp only
    split
    · rfl
    · rename_i hguard
      exact absurd (Or.inr (Or.inl rfl)) hguard

/-- C2: for every position with unique reserve symbols whose stored health
factor matches its derived-metrics recompute, if `getCalculatedLiquidationScenario`
returns a non-empty list of assets with hypothetical prices, then writing each
returned asset's USD price into the position and recomputing the derived
metrics yields a health factor that rounds to 1.00 at two decimals. -/
theorem C2_liquidation_scenario_sound (d : AaveHealthFactorData) (mrp : ℚ)
    (hnd : (d.userReservesData.map (fun r => r.asset.symbol)).Nodup)
    (hhf : d.healthFactor = (updateDerivedHealthFactorData d mrp).healthFactor)
    (hne : getCalculatedLiquidationScenario d mrp ≠ []) :
    hfRoundsToOne
      (updateDerivedHealthFactorData
        (applyScenario d (getCalculatedLiquidationScenario d mrp))
        mrp).healthFactor = true := by
  rcases elig_cases d with hE | ⟨hE, hstable⟩
  · exact absurd (scenario_empty_of_elig_empty d mrp hE) hne
  · have hsub : List.Sublist
        ((getEligibleLiquidationScenarioReserves d).map (fun r => r.asset.symbol))
        (d.userReservesData.map (fun r => r.asset.symbol)) := by
      rw [hE]
      exact (List.filter_sublist _).map _
    have hndsyms : ((getEligibleLiquidationScenarioReserves d).map
        (fun r => r.asset.symbol)).Nodup := hnd.sublist hsub
    have hsyms : ∀ s ∈ (getEligibleLiquidationScenarioReserves d).map
        (fun r => r.asset.symbol),
        s ∈ d.userReservesData.map (fun r => r.asset.symbol) :=
      fun _ hs => hsub.subset hs
    have hdisj : ∀ s ∈ (getEligibleLiquidationScenarioReserves d).map
        (fun r => r.asset.symbol),
        ∀ b ∈ d.userBorrowsData, b.asset.symbol ≠ s := by
      intro s hs b hb heq
      rw [hE] at hs
      obtain ⟨r, hr, hrs⟩ := List.mem_map.mp hs
      obtain ⟨_, hrf⟩ := List.mem_filter.mp hr
      rw [Bool.and_eq_true] at hrf
      have hns : isStablecoinAsset r.asset = false := by
        have h2 := hrf.1
        rwa [Bool.not_eq_true'] at h2
      have hbs := hstable b hb
      unfold isStablecoinAsset at hns hbs
      rw [heq, ← hrs] at hbs
      rw [hns] at hbs
      exact absurd hbs (by decide)
    rcases scenario_shape d mrp hhf hdisj with
      hempty | ⟨Y, hsc, ⟨hist, hkeys, htrace⟩, hround⟩
    · exact absurd hempty hne
    · rw [hsc]
      have hrt := erase_applyScenario_roundtrip d Y _ hist hnd hndsyms hsyms
        hkeys hdisj htrace
      rw [updateDerived_congr mrp hrt]
      exact hround

/-- C2 witness: the demo position (1 cbBTC collateral, 40,000 USDC debt at
market reference price 1) has unique reserve symbols and freshly computed
derived metrics, the solver returns a non-empty scenario, and applying the
scenario's prices and recomputing yields a health factor that rounds to
1.00. -/
theorem C2_liquidation_scenario_sound_witness :
    ((demoPosition.userReservesData.map (fun r => r.asset.symbol)).Nodup ∧
      demoPosition.healthFactor =
        (updateDerivedHealthFactorData demoPosition 1).healthFactor ∧
      getCalculatedLiquidationScenario demoPosition 1 ≠ []) ∧
    hfRoundsToOne
      (updateDerivedHealthFactorData
        (applyScenario demoPosition (getCalculatedLiquidationScenario demoPosition 1))
        1).healthFactor = true :=
  ⟨⟨by decide, by decide, by decide⟩,
    C2_liquidation_scenario_sound demoPosition 1 (by decide) (by decide) (by decide)⟩

end DefiSim
